import Mathlib

/-!
A verification development for the interactive simulation core of
"The Marble Swindle", a 2D point-and-click adventure runtime.

The TypeScript engine modules are modelled by a shallow embedding:

* `GameState.ts`   -- the world-state store, its setters, the condition
  evaluator, and the save/load system (JS numbers that are used as
  integers are modelled by `Int`; the dynamic `new Function` evaluation
  of condition strings is an external oracle parameter);
* `ScriptRunner.ts` -- the script command interpreter (presentation
  events and awaited acknowledgements do not touch the world state;
  the state-transforming semantics is modelled, and a separate
  instrumented runner additionally tracks the `isRunningScript` flag);
* `DialogueManager.ts` / `DialogueLoader.ts` -- dialogue registration,
  tree selection, and static validation;
* `GameScene.ts`    -- the action queue of the dispatcher;
* `pathfinding.ts`  -- geometry over idealised real coordinates `ℝ`
  (JS floats idealised as reals, `Math.sqrt` as `Real.sqrt`).
-/

namespace MarbleSwindle

/-- Plane coordinate (`Point` in `types/game.ts`); JS float coordinates
are idealised as real numbers. -/
structure Point where
  x : ℝ
  y : ℝ

/-- `Polygon` from `types/game.ts`: an ordered sequence of points. -/
structure Polygon where
  points : List Point

/-- A flag value: `boolean | number | string` (numbers used by the
engine are integral). -/
inductive FlagValue where
  | b (v : Bool)
  | n (v : Int)
  | s (v : String)
deriving DecidableEq

/-- Per-room runtime override record (`RoomState` in `types/game.ts`). -/
structure RoomState where
  disabledHotspots : List String
  removedCharacters : List String
  customFlags : String → Option FlagValue

/-- The world state (`GameState` in `types/game.ts`).  JS objects used
as string-keyed dictionaries (`flags`, `roomStates`) are modelled as
functions to `Option`. -/
structure GameState where
  currentRoom : String
  playerPosition : Point
  playerFacing : Bool        -- true ↔ facing right ('left' | 'right')
  inventory : List String
  flags : String → Option FlagValue
  visitedRooms : List String
  solvedPuzzles : List String
  reputation : Int
  dialogueHistory : List String
  selectedChoices : List String
  roomStates : String → Option RoomState

/-- `createInitialState` from `GameState.ts`. -/
noncomputable def createInitialState : GameState where
  currentRoom := "sinkhole"
  playerPosition := ⟨480, 450⟩
  playerFacing := true
  inventory := []
  flags := fun _ => none
  visitedRooms := []
  solvedPuzzles := []
  reputation := 0
  dialogueHistory := []
  selectedChoices := []
  roomStates := fun _ => none

/-- `hasItem` from `GameState.ts`. -/
def hasItem (st : GameState) (itemId : String) : Bool :=
  st.inventory.contains itemId

/-- `hasSelectedChoice` from `GameState.ts`. -/
def hasSelectedChoice (st : GameState) (choiceId : String) : Bool :=
  st.selectedChoices.contains choiceId

/-- `setCurrentRoom` from `GameState.ts`: also records the room in the
visited-room list when absent. -/
def setCurrentRoom (roomId : String) (st : GameState) : GameState :=
  { st with
    currentRoom := roomId
    visitedRooms :=
      if st.visitedRooms.contains roomId then st.visitedRooms
      else st.visitedRooms ++ [roomId] }

/-- `addItem` from `GameState.ts` (idempotent push). -/
def addItem (itemId : String) (st : GameState) : GameState :=
  { st with
    inventory :=
      if st.inventory.contains itemId then st.inventory
      else st.inventory ++ [itemId] }

/-- `removeItem` from `GameState.ts`. -/
def removeItem (itemId : String) (st : GameState) : GameState :=
  { st with inventory := st.inventory.filter (fun id => id ≠ itemId) }

/-- `setFlag` from `GameState.ts`. -/
def setFlag (flag : String) (value : FlagValue) (st : GameState) : GameState :=
  { st with flags := fun k => if k = flag then some value else st.flags k }

/-- `incrementFlag` from `GameState.ts`: adds to a numeric flag, and
otherwise (absent or non-numeric flag) stores the amount itself. -/
def incrementFlag (flag : String) (amount : Int) (st : GameState) : GameState :=
  { st with
    flags := fun k =>
      if k = flag then
        match st.flags flag with
        | some (FlagValue.n current) => some (FlagValue.n (current + amount))
        | _ => some (FlagValue.n amount)
      else st.flags k }

/-- `setReputation` from `GameState.ts`:
`Math.max(-100, Math.min(100, value))`. -/
def setReputation (value : Int) (st : GameState) : GameState :=
  { st with reputation := max (-100) (min 100 value) }

/-- `adjustReputation` from `GameState.ts`. -/
def adjustReputation (amount : Int) (st : GameState) : GameState :=
  setReputation (st.reputation + amount) st

/-- `markPuzzleSolved` from `GameState.ts` (idempotent push). -/
def markPuzzleSolved (puzzleId : String) (st : GameState) : GameState :=
  { st with
    solvedPuzzles :=
      if st.solvedPuzzles.contains puzzleId then st.solvedPuzzles
      else st.solvedPuzzles ++ [puzzleId] }

/-- `recordDialogueVisit` from `GameState.ts` (idempotent push). -/
def recordDialogueVisit (nodeId : String) (st : GameState) : GameState :=
  { st with
    dialogueHistory :=
      if st.dialogueHistory.contains nodeId then st.dialogueHistory
      else st.dialogueHistory ++ [nodeId] }

/-- `recordChoiceSelection` from `GameState.ts` (idempotent push). -/
def recordChoiceSelection (choiceId : String) (st : GameState) : GameState :=
  { st with
    selectedChoices :=
      if st.selectedChoices.contains choiceId then st.selectedChoices
      else st.selectedChoices ++ [choiceId] }

/-- `getRoomState` from `GameState.ts` (default empty record). -/
def getRoomState (st : GameState) (roomId : String) : RoomState :=
  match st.roomStates roomId with
  | some rs => rs
  | none => ⟨[], [], fun _ => none⟩

/-- `setHotspotEnabled` from `GameState.ts`. -/
def setHotspotEnabled (roomId hotspotId : String) (enabled : Bool)
    (st : GameState) : GameState :=
  let rs := getRoomState st roomId
  let rs' :=
    if enabled then
      { rs with disabledHotspots := rs.disabledHotspots.filter (fun id => id ≠ hotspotId) }
    else if rs.disabledHotspots.contains hotspotId then rs
    else { rs with disabledHotspots := rs.disabledHotspots ++ [hotspotId] }
  { st with roomStates := fun k => if k = roomId then some rs' else st.roomStates k }

/-! ### Condition evaluation (`evaluateCondition` in `GameState.ts`)

The source builds a JS `Function` from the condition string and applies
it to a context of query closures over the current state; that dynamic
evaluation is external to the repository and is modelled by an oracle
`jsEval : String → GameState → Option Bool` (`none` models a thrown
evaluation error, `some b` the truthiness `!!` of the produced value).
The surrounding control flow -- the empty/whitespace short-circuit and
the catch-all that logs and returns `false` -- is translated from the
source. -/

/-- JS whitespace, as stripped by `String.prototype.trim` (ASCII part). -/
def isJsWhitespace (c : Char) : Bool :=
  c = ' ' ∨ c = '\t' ∨ c = '\n' ∨ c = '\r' ∨ c = '\x0b' ∨ c = '\x0c'

/-- JS `String.prototype.trim`: strip whitespace from both ends. -/
def jsTrim (s : String) : String :=
  String.mk (((s.toList.dropWhile isJsWhitespace).reverse.dropWhile isJsWhitespace).reverse)

/-- `evaluateCondition` with its error channel: returns the boolean
result together with the list of messages sent to `console.error`.
An empty or whitespace-only condition is vacuously true; an evaluation
failure is caught, logged, and treated as `false`: the function is
total, never propagating the failure. -/
def evaluateConditionLog (jsEval : String → GameState → Option Bool)
    (condition : String) (st : GameState) : Bool × List String :=
  if condition = "" ∨ jsTrim condition = "" then (true, [])
  else
    match jsEval condition st with
    | some b => (b, [])
    | none => (false, ["Failed to evaluate condition: " ++ condition])

/-- `evaluateCondition` from `GameState.ts` (the boolean result). -/
def evaluateCondition (jsEval : String → GameState → Option Bool)
    (condition : String) (st : GameState) : Bool :=
  (evaluateConditionLog jsEval condition st).1

/-! ### Claim C3: the reputation clamp -/

/-- The two reputation-writing operations of the store. -/
inductive ReputationOp where
  | set (value : Int)
  | adjust (amount : Int)

/-- Apply one reputation operation. -/
def applyReputationOp (op : ReputationOp) (st : GameState) : GameState :=
  match op with
  | .set v => setReputation v st
  | .adjust a => adjustReputation a st

/-- Apply a sequence of reputation operations, first element first. -/
def applyReputationOps (ops : List ReputationOp) (st : GameState) : GameState :=
  ops.foldl (fun s op => applyReputationOp op s) st

/-- Any single write leaves the reputation clamped. -/
theorem applyReputationOp_mem_Icc (op : ReputationOp) (st : GameState) :
    -100 ≤ (applyReputationOp op st).reputation ∧
      (applyReputationOp op st).reputation ≤ 100 := by
  cases op <;>
    simp [applyReputationOp, setReputation, adjustReputation]

/-- The clamp is preserved by whole sequences. -/
theorem applyReputationOps_mem_Icc (ops : List ReputationOp) (st : GameState)
    (h1 : -100 ≤ st.reputation) (h2 : st.reputation ≤ 100) :
    -100 ≤ (applyReputationOps ops st).reputation ∧
      (applyReputationOps ops st).reputation ≤ 100 := by
  induction ops generalizing st with
  | nil => exact ⟨h1, h2⟩
  | cons op rest ih =>
    have h := applyReputationOp_mem_Icc op st
    exact ih (applyReputationOp op st) h.1 h.2

/-- C3: for every sequence of reputation writes (`setReputation`) and
adjustments (`adjustReputation`) starting from any in-range state, the
stored reputation stays within [-100, 100] after each operation (i.e.
after every prefix of the sequence), and `adjustReputation 1000` applied
at reputation 0 yields exactly 100. -/
theorem c3_reputation_clamped (st : GameState)
    (h1 : -100 ≤ st.reputation) (h2 : st.reputation ≤ 100) :
    (∀ (ops : List ReputationOp) (i : ℕ),
      -100 ≤ (applyReputationOps (ops.take i) st).reputation ∧
        (applyReputationOps (ops.take i) st).reputation ≤ 100) ∧
    ∀ st0 : GameState, st0.reputation = 0 →
      (adjustReputation 1000 st0).reputation = 100 := by
  refine ⟨fun ops i => applyReputationOps_mem_Icc (ops.take i) st h1 h2, ?_⟩
  intro st0 h0
  simp [adjustReputation, setReputation, h0]

/-- Witness for C3 at a concrete state and operation sequence. -/
theorem c3_reputation_clamped_witness :
    -100 ≤ (0 : Int) ∧
    ((∀ (ops : List ReputationOp) (i : ℕ),
      -100 ≤ (applyReputationOps (ops.take i) { createInitialState with reputation := 0 }).reputation ∧
        (applyReputationOps (ops.take i) { createInitialState with reputation := 0 }).reputation ≤ 100) ∧
    ∀ st0 : GameState, st0.reputation = 0 →
      (adjustReputation 1000 st0).reputation = 100) :=
  ⟨by norm_num,
   c3_reputation_clamped { createInitialState with reputation := 0 }
     (by norm_num) (by norm_num)⟩

/-! ### Claim C4: the condition evaluator is total -/

/-- C4: for every condition string, state, and behaviour of the dynamic
evaluator, `evaluateCondition` produces a boolean rather than
propagating an error: a whitespace-only (or empty) condition evaluates
to `true` with nothing logged, and a malformed condition -- one whose
dynamic evaluation fails -- evaluates to `false` with the failure
reported on the error channel. -/
theorem c4_evaluateCondition_total (jsEval : String → GameState → Option Bool)
    (condition : String) (st : GameState) :
    (jsTrim condition = "" →
      evaluateConditionLog jsEval condition st = (true, [])) ∧
    (jsEval condition st = none → jsTrim condition ≠ "" → condition ≠ "" →
      evaluateConditionLog jsEval condition st =
        (false, ["Failed to evaluate condition: " ++ condition])) := by
  constructor
  · intro h
    simp [evaluateConditionLog, h]
  · intro herr htrim hne
    simp [evaluateConditionLog, hne, htrim, herr]

/-- Witness for C4: the whitespace-only condition `"   "` evaluates to
`true`, and a malformed condition (evaluator fails) evaluates to `false`
with the failure logged. -/
theorem c4_evaluateCondition_total_witness :
    (evaluateConditionLog (fun _ _ => none) "   " createInitialState = (true, [])) ∧
    (evaluateConditionLog (fun _ _ => none) "hasItem(" createInitialState =
      (false, ["Failed to evaluate condition: " ++ "hasItem("])) :=
  ⟨(c4_evaluateCondition_total (fun _ _ => none) "   " createInitialState).1 (by decide),
   (c4_evaluateCondition_total (fun _ _ => none) "hasItem(" createInitialState).2
     rfl (by decide) (by decide)⟩

/-! ### The script command set (`ScriptCommand` in `types/game.ts`)

The closed tagged union of script commands.  Optional durations and the
optional `else` branch are `Option`s, exactly as in the source type. -/

/-- `ScriptCommand` from `types/game.ts`. -/
inductive ScriptCommand where
  | say (character text : String) (voiceLine : Option String)
  | narrate (text : String)
  | thought (text : String)
  | setFlag (flag : String) (value : FlagValue)
  | incFlag (flag : String) (amount : Int)
  | giveItem (itemId : String)
  | takeItem (itemId : String)
  | enableHotspot (hotspotId : String) (enabled : Bool)
  | teleport (characterId : String) (position : Point)
  | goToRoom (roomId : String) (position : Option Point)
  | playSound (sound : String)
  | playMusic (music : String) (fade : Option Int)
  | stopMusic (fade : Option Int)
  | wait (seconds : Int)
  | animate (characterId animation : String)
  | walk (characterId : String) (position : Point)
  | face (characterId : String) (direction : Bool)
  | startDialogue (characterId : String) (nodeId : Option String)
  | ifCmd (condition : String) (thenCmds : List ScriptCommand)
      (elseCmds : Option (List ScriptCommand))
  | fadeOut (duration : Option Int)
  | fadeIn (duration : Option Int)
  | cutscene (id : String)
  | reputation (amount : Int)
  | puzzleSolved (puzzleId : String)

/-! ### The script interpreter (`ScriptRunner.ts`)

`executeCommand` / `runScript`, as state transformers on the world
state.  Presentation-facing `emit(...)` calls only notify external
listeners, and the awaited acknowledgements (`waitForDialogueDismiss`,
`waitForWalkComplete`, ...) and `sleep` suspend execution without
touching the world state, so they vanish in the state-transforming
semantics; command effects run in program order, each starting from the
state produced by the previous command.  The `if` command evaluates its
condition with `evaluateCondition` and recursively runs exactly one
nested list.  Unknown commands cannot arise: the union is closed. -/

mutual

/-- `executeCommand` from `ScriptRunner.ts` (world-state effect). -/
def executeCommand (jsEval : String → GameState → Option Bool) :
    ScriptCommand → GameState → GameState
  | .say _ _ _, st => st
  | .narrate _, st => st
  | .thought _, st => st
  | .setFlag flag value, st => setFlag flag value st
  | .incFlag flag amount, st => incrementFlag flag amount st
  | .giveItem itemId, st => addItem itemId st
  | .takeItem itemId, st => removeItem itemId st
  | .enableHotspot hotspotId enabled, st =>
      setHotspotEnabled st.currentRoom hotspotId enabled st
  | .teleport _ _, st => st
  | .goToRoom roomId _, st => setCurrentRoom roomId st
  | .playSound _, st => st
  | .playMusic _ _, st => st
  | .stopMusic _, st => st
  | .wait _, st => st
  | .animate _ _, st => st
  | .walk _ _, st => st
  | .face _ _, st => st
  | .startDialogue _ _, st => st
  | .ifCmd condition thenCmds elseCmds, st =>
      if evaluateCondition jsEval condition st then runScript jsEval thenCmds st
      else
        match elseCmds with
        | some cmds => runScript jsEval cmds st
        | none => st
  | .fadeOut _, st => st
  | .fadeIn _, st => st
  | .cutscene _, st => st
  | .reputation amount, st => adjustReputation amount st
  | .puzzleSolved puzzleId, st => markPuzzleSolved puzzleId st

/-- `runScript` from `ScriptRunner.ts`: execute the list front to back,
awaiting each command before the next. -/
def runScript (jsEval : String → GameState → Option Bool) :
    List ScriptCommand → GameState → GameState
  | [], st => st
  | cmd :: rest, st => runScript jsEval rest (executeCommand jsEval cmd st)

end

/-! ### Claim C2: strict in-order execution -/

/-- The timed `wait` command (an asynchronous suspension that resumes
after its duration). -/
def isWaitCommand : ScriptCommand → Bool
  | .wait _ => true
  | _ => false

/-- A `wait` command never changes the world state. -/
theorem executeCommand_wait (jsEval : String → GameState → Option Bool)
    (cmd : ScriptCommand) (h : isWaitCommand cmd = true) (st : GameState) :
    executeCommand jsEval cmd st = st := by
  cases cmd <;> simp_all [isWaitCommand, executeCommand]

/-- `runScript` over a concatenation runs the first list to completion
before the second. -/
theorem runScript_append (jsEval : String → GameState → Option Bool)
    (l1 l2 : List ScriptCommand) (st : GameState) :
    runScript jsEval (l1 ++ l2) st = runScript jsEval l2 (runScript jsEval l1 st) := by
  induction l1 generalizing st with
  | nil => rfl
  | cons c rest ih => simp [runScript, ih]

/-- A list of `wait` commands leaves the state unchanged. -/
theorem runScript_waits (jsEval : String → GameState → Option Bool)
    (ws : List ScriptCommand) (hw : ∀ w ∈ ws, isWaitCommand w = true)
    (st : GameState) : runScript jsEval ws st = st := by
  induction ws with
  | nil => rfl
  | cons w rest ih =>
    have h1 := hw w (List.mem_cons_self w rest)
    simp [runScript, executeCommand_wait jsEval w h1]
    exact ih fun v hv => hw v (List.mem_cons_of_mem w hv)

/-- C2: the interpreter executes a command list strictly in list order
with no reordering -- running `cmd :: rest` runs `rest` from the state
produced by `cmd` -- and concretely, after running
`[setFlag a 1] ++ waits ++ [setFlag a 2] ++ waits'` (asynchronous `wait`
commands in between and after), flag `a` holds exactly `2`. -/
theorem c2_runScript_in_order (jsEval : String → GameState → Option Bool) :
    (∀ (cmd : ScriptCommand) (rest : List ScriptCommand) (st : GameState),
      runScript jsEval (cmd :: rest) st =
        runScript jsEval rest (executeCommand jsEval cmd st)) ∧
    ∀ (a : String) (ws ws' : List ScriptCommand) (st : GameState),
      (∀ w ∈ ws, isWaitCommand w = true) → (∀ w ∈ ws', isWaitCommand w = true) →
      (runScript jsEval
          ([ScriptCommand.setFlag a (FlagValue.n 1)] ++ ws ++
            [ScriptCommand.setFlag a (FlagValue.n 2)] ++ ws') st).flags a =
        some (FlagValue.n 2) := by
  refine ⟨fun cmd rest st => rfl, ?_⟩
  intro a ws ws' st hw hw'
  rw [runScript_append, runScript_append, runScript_append,
    runScript_waits jsEval ws' hw', runScript_waits jsEval ws hw]
  simp [runScript, executeCommand, setFlag]

/-- Witness for C2 at a concrete program with waits interleaved. -/
theorem c2_runScript_in_order_witness :
    (∀ w ∈ [ScriptCommand.wait 1], isWaitCommand w = true) ∧
    (runScript (fun _ _ => none)
        ([ScriptCommand.setFlag "a" (FlagValue.n 1)] ++ [ScriptCommand.wait 1] ++
          [ScriptCommand.setFlag "a" (FlagValue.n 2)] ++ [ScriptCommand.wait 2])
        createInitialState).flags "a" = some (FlagValue.n 2) :=
  ⟨by decide,
   (c2_runScript_in_order (fun _ _ => none)).2 "a" [ScriptCommand.wait 1]
     [ScriptCommand.wait 2] createInitialState (by decide) (by decide)⟩

/-! ### Dialogue data (`types/dialogue.ts`, `types/game.ts`)

JS objects used as maps (`nodes`) are association lists; property
lookups are `lookupKey`.  Optional fields are `Option`s. -/

/-- `DialogueChoiceDefinition` from `types/dialogue.ts`. -/
structure DialogueChoiceDefinition where
  id : String
  text : String
  targetNode : String
  condition : Option String := none
  once : Option Bool := none
  onSelect : Option (List ScriptCommand) := none

/-- `DialogueNodeDefinition` from `types/dialogue.ts`. -/
structure DialogueNodeDefinition where
  id : String
  speaker : Option String := none
  text : String
  voiceLine : Option String := none
  portrait : Option String := none
  choices : Option (List DialogueChoiceDefinition) := none
  next : Option String := none
  onEnter : Option (List ScriptCommand) := none
  onExit : Option (List ScriptCommand) := none
  endConversation : Option Bool := none

/-- `DialogueMetadata` from `types/dialogue.ts`. -/
structure DialogueMetadata where
  title : Option String := none
  description : Option String := none
  priority : Option Int := none
  condition : Option String := none
  oneTime : Option Bool := none

/-- `DialogueTreeDefinition` from `types/dialogue.ts`. -/
structure DialogueTreeDefinition where
  id : String
  characterId : String
  startNode : String
  nodes : List (String × DialogueNodeDefinition)
  metadata : Option DialogueMetadata := none

/-- `DialogueFile` from `types/dialogue.ts`. -/
structure DialogueFile where
  version : String
  characterId : String
  characterName : String
  defaultPortrait : Option String := none
  dialogues : List DialogueTreeDefinition

/-- Engine-side `DialogueChoice` from `types/game.ts`. -/
structure DialogueChoice where
  id : String
  text : String
  targetNode : String
  condition : Option String := none
  once : Option Bool := none
  onSelect : Option (List ScriptCommand) := none

/-- Engine-side `DialogueNode` from `types/game.ts`. -/
structure DialogueNode where
  id : String
  speaker : Option String := none
  text : String
  voiceLine : Option String := none
  portrait : Option String := none
  next : Option String := none
  choices : Option (List DialogueChoice) := none
  onEnter : Option (List ScriptCommand) := none
  onExit : Option (List ScriptCommand) := none
  endConversation : Option Bool := none

/-- Engine-side `DialogueTree` from `types/game.ts`. -/
structure DialogueTree where
  id : String
  characterId : String
  startNode : String
  nodes : List (String × DialogueNode)

/-- JS truthiness of an optional string field: `undefined` and the
empty string are falsy. -/
def strTruthy : Option String → Bool
  | none => false
  | some s => !(s == "")

/-- JS truthiness of an optional boolean field. -/
def boolTruthy : Option Bool → Bool
  | none => false
  | some b => b

/-! ### Dialogue loading (`DialogueLoader.ts`) -/

/-- JS object / `Map` property read on an association list
(`obj[key]`, first matching key). -/
def lookupKey {κ α : Type} [DecidableEq κ] (k : κ) : List (κ × α) → Option α
  | [] => none
  | p :: rest => if p.1 = k then some p.2 else lookupKey k rest

/-- `JS Map.set` / object property write on an association list: an
existing key keeps its position and gets the new value, a fresh key is
appended (JS `Map`s and objects preserve insertion order). -/
def mapSet {κ α : Type} [DecidableEq κ] (m : List (κ × α)) (k : κ) (v : α) :
    List (κ × α) :=
  if m.any (fun p => p.1 = k) then
    m.map (fun p => if p.1 = k then (k, v) else p)
  else m ++ [(k, v)]

/-- `convertNode` from `DialogueLoader.ts`: copy the truthy fields of a
node definition into the engine node (an empty `choices` array is
dropped, matching `def.choices && def.choices.length > 0`). -/
def convertNode (defn : DialogueNodeDefinition) : DialogueNode where
  id := defn.id
  text := defn.text
  speaker := if strTruthy defn.speaker then defn.speaker else none
  voiceLine := if strTruthy defn.voiceLine then defn.voiceLine else none
  portrait := if strTruthy defn.portrait then defn.portrait else none
  next := if strTruthy defn.next then defn.next else none
  endConversation := if boolTruthy defn.endConversation then defn.endConversation else none
  onEnter := if defn.onEnter.isSome then defn.onEnter else none
  onExit := if defn.onExit.isSome then defn.onExit else none
  choices :=
    match defn.choices with
    | some cs =>
        if cs.length > 0 then
          some (cs.map (fun c => ⟨c.id, c.text, c.targetNode, c.condition, c.once, c.onSelect⟩))
        else none
    | none => none

/-- `convertToEngineFormat` from `DialogueLoader.ts`. -/
def convertToEngineFormat (defn : DialogueTreeDefinition) : DialogueTree where
  id := defn.id
  characterId := defn.characterId
  startNode := defn.startNode
  nodes := defn.nodes.map (fun p => (p.1, convertNode p.2))

/-- The registries of `DialogueLoader.ts` (`dialogueFiles`,
`dialogueTrees`) and of `DialogueManager.ts` (its `dialogueTrees` map,
fed through `registerDialogueTree`). -/
structure DialogueLoaderState where
  dialogueFiles : List (String × DialogueFile)
  dialogueTreeDefs : List (String × DialogueTreeDefinition)
  registeredTrees : List (String × DialogueTree)

/-- `loadDialogueFile` from `DialogueLoader.ts`: store the file by
character id, then register each contained tree (by tree id) both as a
definition and, converted, with the dialogue manager. -/
def loadDialogueFile (ls : DialogueLoaderState) (file : DialogueFile) :
    DialogueLoaderState :=
  let ls1 := { ls with dialogueFiles := mapSet ls.dialogueFiles file.characterId file }
  file.dialogues.foldl
    (fun acc dlg =>
      { acc with
        dialogueTreeDefs := mapSet acc.dialogueTreeDefs dlg.id dlg
        registeredTrees := mapSet acc.registeredTrees dlg.id (convertToEngineFormat dlg) })
    ls1

/-- `findDialogueForCharacter` from `DialogueLoader.ts`: stable-sort the
character's trees by descending priority (`metadata?.priority || 0`),
return the first whose availability condition is absent/empty or passes,
and otherwise fall back to the highest-priority tree. -/
def priorityOf (d : DialogueTreeDefinition) : Int :=
  match d.metadata with
  | some m => m.priority.getD 0
  | none => 0

/-- Stable insertion (descending priority): walk past strictly greater
priorities, settle before lower-or-equal ones. -/
def insertByPriorityDesc (d : DialogueTreeDefinition) :
    List DialogueTreeDefinition → List DialogueTreeDefinition
  | [] => [d]
  | e :: es =>
      if priorityOf d < priorityOf e then e :: insertByPriorityDesc d es
      else d :: e :: es

/-- Stable sort by descending priority, as JS `Array.prototype.sort`
with comparator `(b.priority || 0) - (a.priority || 0)` (JS sort is
stable; a stable sort is unique, so insertion sort realises it). -/
def sortByPriorityDesc : List DialogueTreeDefinition → List DialogueTreeDefinition
  | [] => []
  | d :: ds => insertByPriorityDesc d (sortByPriorityDesc ds)

/-- Does a tree's availability condition pass
(`!condition || evaluateCondition(condition)`)? -/
def dialogueAvailable (jsEval : String → GameState → Option Bool)
    (st : GameState) (d : DialogueTreeDefinition) : Bool :=
  match d.metadata with
  | some m =>
      match m.condition with
      | some cond => if cond = "" then true else evaluateCondition jsEval cond st
      | none => true
  | none => true

/-- `findDialogueForCharacter` from `DialogueLoader.ts`. -/
def findDialogueForCharacter (jsEval : String → GameState → Option Bool)
    (st : GameState) (files : List (String × DialogueFile))
    (characterId : String) : Option DialogueTreeDefinition :=
  match lookupKey characterId files with
  | none => none
  | some file =>
      let sorted := sortByPriorityDesc file.dialogues
      match sorted.find? (dialogueAvailable jsEval st) with
      | some d => some d
      | none => sorted.head?

/-! ### Dialogue graph validation (`validateDialogueFile` in
`DialogueLoader.ts`) -/


/-- The start-node error message of `validateDialogueFile`
(`\x27` is the ASCII apostrophe). -/
def startErrMsg (d : DialogueTreeDefinition) : String :=
  "Dialogue " ++ d.id ++ ": Start node \x27" ++ d.startNode ++ "\x27 not found"

/-- The dangling-`next` error message. -/
def nextErrMsg (d : DialogueTreeDefinition) (nodeId nxt : String) : String :=
  "Dialogue " ++ d.id ++ ", node " ++ nodeId ++
    ": \x27next\x27 references non-existent node \x27" ++ nxt ++ "\x27"

/-- The dangling-choice-target error message. -/
def choiceErrMsg (d : DialogueTreeDefinition) (nodeId : String)
    (c : DialogueChoiceDefinition) : String :=
  "Dialogue " ++ d.id ++ ", node " ++ nodeId ++ ", choice " ++ c.id ++
    ": \x27targetNode\x27 references non-existent node \x27" ++ c.targetNode ++ "\x27"

/-- The missing-exit error message. -/
def noExitErrMsg (d : DialogueTreeDefinition) (nodeId : String) : String :=
  "Dialogue " ++ d.id ++ ", node " ++ nodeId ++
    ": Node has no exit (next, choices, or endConversation)"

/-- The dangling-`next` check of `validateDialogueFile`
(`node.next && node.next !== 'end' && !dialogue.nodes[node.next]`). -/
def nodeNextErrors (d : DialogueTreeDefinition) (nodeId : String)
    (node : DialogueNodeDefinition) : List String :=
  match node.next with
  | some nxt =>
      if nxt ≠ "" ∧ nxt ≠ "end" ∧ (lookupKey nxt d.nodes).isNone then
        [nextErrMsg d nodeId nxt]
      else []
  | none => []

/-- The choice-target checks of `validateDialogueFile` (entered whenever
the `choices` field is present, as JS `if (node.choices)`). -/
def nodeChoiceErrors (d : DialogueTreeDefinition) (nodeId : String)
    (node : DialogueNodeDefinition) : List String :=
  match node.choices with
  | some cs =>
      cs.foldl
        (fun acc c =>
          acc ++
            (if c.targetNode ≠ "end" ∧ (lookupKey c.targetNode d.nodes).isNone then
              [choiceErrMsg d nodeId c]
            else []))
        []
  | none => []

/-- The missing-exit check of `validateDialogueFile`
(`!node.next && !node.choices && !node.endConversation`). -/
def nodeExitErrors (d : DialogueTreeDefinition) (nodeId : String)
    (node : DialogueNodeDefinition) : List String :=
  if strTruthy node.next = false ∧ node.choices.isNone ∧
      boolTruthy node.endConversation = false then
    [noExitErrMsg d nodeId]
  else []

/-- All errors contributed by one node, in source order. -/
def nodeRefErrors (d : DialogueTreeDefinition) (nodeId : String)
    (node : DialogueNodeDefinition) : List String :=
  nodeNextErrors d nodeId node ++ nodeChoiceErrors d nodeId node ++
    nodeExitErrors d nodeId node

/-- The errors reported for one dialogue tree: a missing start node,
then the per-node errors in node order. -/
def validateDialogueTree (d : DialogueTreeDefinition) : List String :=
  (if (lookupKey d.startNode d.nodes).isNone then [startErrMsg d] else [])
    ++ d.nodes.foldl (fun acc p => acc ++ nodeRefErrors d p.1 p.2) []

/-- `validateDialogueFile` from `DialogueLoader.ts`: `valid` holds iff
no errors were collected over the file's trees. -/
def validateDialogueFile (file : DialogueFile) : Bool × List String :=
  let errors := file.dialogues.foldl (fun acc d => acc ++ validateDialogueTree d) []
  (errors.isEmpty, errors)

/-- A node is well formed for validation purposes: it has an exit
mechanism (truthy `next`, a `choices` field, or a terminal marking) and
its `next`/choice targets resolve in the tree or are the sentinel
`"end"` (an empty-string `next` is falsy and hence not checked). -/
abbrev nodeWellFormed (d : DialogueTreeDefinition)
    (node : DialogueNodeDefinition) : Prop :=
  (strTruthy node.next = true ∨ node.choices.isSome = true ∨
    boolTruthy node.endConversation = true) ∧
  (∀ nxt ∈ node.next.toList,
    nxt = "" ∨ nxt = "end" ∨ (lookupKey nxt d.nodes).isSome = true) ∧
  (∀ cs ∈ node.choices.toList, ∀ c ∈ cs,
    c.targetNode = "end" ∨ (lookupKey c.targetNode d.nodes).isSome = true)

/-- An option known to hold a value is not `none`. -/
theorem isNone_eq_false_of_isSome {α : Type} {o : Option α}
    (h : o.isSome = true) : o.isNone = false := by
  cases o <;> simp_all

/-- A well-formed node has no dangling-`next` error. -/
theorem nodeNextErrors_eq_nil (d : DialogueTreeDefinition) (nodeId : String)
    (node : DialogueNodeDefinition) (h : nodeWellFormed d node) :
    nodeNextErrors d nodeId node = [] := by
  obtain ⟨-, hnext, -⟩ := h
  unfold nodeNextErrors
  cases hcase : node.next with
  | none => rfl
  | some nxt =>
    rw [hcase] at hnext
    have hnext' : nxt = "" ∨ nxt = "end" ∨ (lookupKey nxt d.nodes).isSome = true :=
      hnext nxt (by simp)
    show (if nxt ≠ "" ∧ nxt ≠ "end" ∧ (lookupKey nxt d.nodes).isNone then
      [nextErrMsg d nodeId nxt] else []) = []
    rw [if_neg]
    rcases hnext' with h1 | h1 | h1
    · exact fun hcon => hcon.1 h1
    · exact fun hcon => hcon.2.1 h1
    · exact fun hcon => by
        rw [isNone_eq_false_of_isSome h1] at hcon
        exact Bool.false_ne_true hcon.2.2

/-- The choice-target fold contributes nothing when every target
resolves or is the sentinel `"end"`. -/
theorem choiceErrorsFold_eq_nil (d : DialogueTreeDefinition) (nodeId : String)
    (cs : List DialogueChoiceDefinition)
    (hch : ∀ c ∈ cs, c.targetNode = "end" ∨ (lookupKey c.targetNode d.nodes).isSome = true)
    (acc : List String) :
    cs.foldl
      (fun acc c =>
        acc ++
          (if c.targetNode ≠ "end" ∧ (lookupKey c.targetNode d.nodes).isNone then
            [choiceErrMsg d nodeId c]
          else []))
      acc = acc := by
  induction cs generalizing acc with
  | nil => rfl
  | cons c rest ih =>
    have hc := hch c (List.mem_cons_self c rest)
    have hcond : ¬(c.targetNode ≠ "end" ∧ (lookupKey c.targetNode d.nodes).isNone = true) := by
      rcases hc with h1 | h1
      · exact fun hcon => hcon.1 h1
      · exact fun hcon => by
          rw [isNone_eq_false_of_isSome h1] at hcon
          exact Bool.false_ne_true hcon.2
    simp only [List.foldl_cons, if_neg hcond, List.append_nil]
    exact ih (fun c' h' => hch c' (List.mem_cons_of_mem c h')) acc

/-- A well-formed node has no dangling-choice-target error. -/
theorem nodeChoiceErrors_eq_nil (d : DialogueTreeDefinition) (nodeId : String)
    (node : DialogueNodeDefinition) (h : nodeWellFormed d node) :
    nodeChoiceErrors d nodeId node = [] := by
  obtain ⟨-, -, hchoices⟩ := h
  unfold nodeChoiceErrors
  cases hcase : node.choices with
  | none => rfl
  | some cs =>
    rw [hcase] at hchoices
    have hch : ∀ c ∈ cs, c.targetNode = "end" ∨ (lookupKey c.targetNode d.nodes).isSome = true :=
      hchoices cs (by simp)
    exact choiceErrorsFold_eq_nil d nodeId cs hch []

/-- A well-formed node has no missing-exit error. -/
theorem nodeExitErrors_eq_nil (d : DialogueTreeDefinition) (nodeId : String)
    (node : DialogueNodeDefinition) (h : nodeWellFormed d node) :
    nodeExitErrors d nodeId node = [] := by
  obtain ⟨hexit, -, -⟩ := h
  unfold nodeExitErrors
  rw [if_neg]
  rcases hexit with h1 | h1 | h1
  · exact fun hcon => by rw [h1] at hcon; exact Bool.noConfusion hcon.1
  · exact fun hcon => by
      rw [isNone_eq_false_of_isSome h1] at hcon
      exact Bool.false_ne_true hcon.2.1
  · exact fun hcon => by rw [h1] at hcon; exact Bool.noConfusion hcon.2.2

/-- A well-formed node contributes no errors at all. -/
theorem nodeRefErrors_eq_nil (d : DialogueTreeDefinition) (nodeId : String)
    (node : DialogueNodeDefinition) (h : nodeWellFormed d node) :
    nodeRefErrors d nodeId node = [] := by
  unfold nodeRefErrors
  rw [nodeNextErrors_eq_nil d nodeId node h, nodeChoiceErrors_eq_nil d nodeId node h,
    nodeExitErrors_eq_nil d nodeId node h]
  rfl

/-- The node fold contributes nothing when every node is well formed. -/
theorem nodeErrorsFold_eq_nil (d : DialogueTreeDefinition)
    (l : List (String × DialogueNodeDefinition))
    (h : ∀ p ∈ l, nodeWellFormed d p.2) (acc : List String) :
    l.foldl (fun acc p => acc ++ nodeRefErrors d p.1 p.2) acc = acc := by
  induction l generalizing acc with
  | nil => rfl
  | cons p rest ih =>
    have h1 := nodeRefErrors_eq_nil d p.1 p.2 (h p (List.mem_cons_self p rest))
    simp only [List.foldl_cons, h1, List.append_nil]
    exact ih (fun q hq => h q (List.mem_cons_of_mem p hq)) acc

/-- For a tree whose nodes are all well formed, validation reduces to
the start-node check. -/
theorem validateDialogueTree_eq (d : DialogueTreeDefinition)
    (h : ∀ p ∈ d.nodes, nodeWellFormed d p.2) :
    validateDialogueTree d =
      (if (lookupKey d.startNode d.nodes).isNone then [startErrMsg d] else []) := by
  unfold validateDialogueTree
  rw [nodeErrorsFold_eq_nil d d.nodes h [], List.append_nil]

/-- C7: (a) for a dialogue tree whose start node id is absent from its
node map but whose nodes are otherwise well formed, validation reports
exactly one error, and that error names the tree and the missing start
node; (b) for a file of trees in which every node has an exit (`next`,
choices, or terminal marking), every `next`/choice target resolves or is
the sentinel `"end"`, and every start node resolves, validation reports
zero errors. -/
theorem c7_validateDialogueFile (d : DialogueTreeDefinition)
    (file : DialogueFile)
    (hstart : (lookupKey d.startNode d.nodes).isNone = true)
    (hwf : ∀ p ∈ d.nodes, nodeWellFormed d p.2)
    (hfile : ∀ e ∈ file.dialogues,
      (lookupKey e.startNode e.nodes).isSome = true ∧ ∀ p ∈ e.nodes, nodeWellFormed e p.2) :
    (validateDialogueTree d = [startErrMsg d] ∧
      ∃ s1 s2 s3, validateDialogueTree d = [s1 ++ (d.id ++ (s2 ++ (d.startNode ++ s3)))]) ∧
    validateDialogueFile file = (true, []) := by
  have hd : validateDialogueTree d = [startErrMsg d] := by
    rw [validateDialogueTree_eq d hwf, if_pos hstart]
  refine ⟨⟨hd, ?_⟩, ?_⟩
  · refine ⟨"Dialogue ", ": Start node \x27", "\x27 not found", ?_⟩
    rw [hd]
    unfold startErrMsg
    simp [String.append_assoc]
  · have hfold : ∀ (l : List DialogueTreeDefinition),
        (∀ e ∈ l, (lookupKey e.startNode e.nodes).isSome = true ∧
          ∀ p ∈ e.nodes, nodeWellFormed e p.2) →
        ∀ acc : List String,
          l.foldl (fun acc e => acc ++ validateDialogueTree e) acc = acc := by
      intro l hl
      induction l with
      | nil => exact fun acc => rfl
      | cons e rest ih =>
        intro acc
        obtain ⟨h1, h2⟩ := hl e (List.mem_cons_self e rest)
        have he : validateDialogueTree e = [] := by
          rw [validateDialogueTree_eq e h2, if_neg]
          rw [isNone_eq_false_of_isSome h1]
          exact Bool.false_ne_true
        have ih' := ih fun q hq => hl q (List.mem_cons_of_mem e hq)
        simp only [List.foldl_cons, he, List.append_nil]
        exact ih' acc
    unfold validateDialogueFile
    rw [hfold file.dialogues hfile []]
    rfl

/-- A tree with a missing start node whose single node is terminal. -/
def c7BadTree : DialogueTreeDefinition where
  id := "bad"
  characterId := "npc"
  startNode := "missing"
  nodes := [("a", { id := "a", text := "t", endConversation := some true })]

/-- A fully well-formed tree. -/
def c7GoodTree : DialogueTreeDefinition where
  id := "good"
  characterId := "npc"
  startNode := "a"
  nodes :=
    [("a", { id := "a", text := "t",
             choices := some [⟨"c1", "go", "b", none, none, none⟩, ⟨"c2", "stop", "end", none, none, none⟩] }),
     ("b", { id := "b", text := "u", next := some "end" }),
     ("c", { id := "c", text := "v", endConversation := some true })]

/-- A file containing only well-formed trees. -/
def c7GoodFile : DialogueFile where
  version := "1"
  characterId := "npc"
  characterName := "NPC"
  dialogues := [c7GoodTree]

/-- Witness for C7 at concrete trees. -/
theorem c7_validateDialogueFile_witness :
    (lookupKey c7BadTree.startNode c7BadTree.nodes).isNone = true ∧
    ((validateDialogueTree c7BadTree = [startErrMsg c7BadTree] ∧
      ∃ s1 s2 s3, validateDialogueTree c7BadTree =
        [s1 ++ (c7BadTree.id ++ (s2 ++ (c7BadTree.startNode ++ s3)))]) ∧
     validateDialogueFile c7GoodFile = (true, [])) :=
  ⟨by decide,
   c7_validateDialogueFile c7BadTree c7GoodFile (by decide)
     (by decide) (by decide)⟩

/-! ### Claim C6: dialogue tree selection in `startDialogue`
(`DialogueManager.ts`)

`startDialogue(characterId, startNodeId?)` looks the tree up with
`Array.from(dialogueTrees.values()).find(t => t.characterId ===
characterId)` -- the first registered tree owned by the character, in
registration order -- and then enters `startNodeId || tree.startNode`.
The claim instead describes `findDialogueForCharacter` (in
`DialogueLoader.ts`), which nothing calls. -/

/-- The tree selection and entry-node resolution performed by
`startDialogue` in `DialogueManager.ts`. -/
def startDialogueSelection (registeredTrees : List (String × DialogueTree))
    (characterId : String) (startNodeId : Option String) :
    Option (DialogueTree × String) :=
  match (registeredTrees.map Prod.snd).find? (fun t => t.characterId == characterId) with
  | none => none
  | some tree =>
      some (tree,
        match startNodeId with
        | some s => if s = "" then tree.startNode else s
        | none => tree.startNode)

/-- Lower-priority tree, registered first. -/
def c6LowTree : DialogueTreeDefinition where
  id := "low"
  characterId := "npc"
  startNode := "s"
  nodes := [("s", { id := "s", text := "low greeting", endConversation := some true })]

/-- Higher-priority tree (priority 5, no availability condition),
registered second. -/
def c6HighTree : DialogueTreeDefinition where
  id := "high"
  characterId := "npc"
  startNode := "s"
  nodes := [("s", { id := "s", text := "high greeting", endConversation := some true })]
  metadata := some { priority := some 5 }

/-- A dialogue file with both trees for the same character. -/
def c6File : DialogueFile where
  version := "1"
  characterId := "npc"
  characterName := "NPC"
  dialogues := [c6LowTree, c6HighTree]

/-- The loader state after loading `c6File`. -/
def c6Loaded : DialogueLoaderState := loadDialogueFile ⟨[], [], []⟩ c6File

/-- C6 counterexample: for a character with two registered trees where
the second has higher priority (and no availability condition),
selection by descending priority -- which `findDialogueForCharacter`
implements -- would pick the `"high"` tree, but `startDialogue` picks
the `"low"` tree: it takes the first registered match and ignores
priority metadata, refuting the claim. -/
theorem c6_startDialogue_counterexample :
    (startDialogueSelection c6Loaded.registeredTrees "npc" none).map (fun p => p.1.id) =
      some "low" ∧
    (findDialogueForCharacter (fun _ _ => none) createInitialState
        c6Loaded.dialogueFiles "npc").map (fun d => d.id) = some "high" ∧
    ("low" : String) ≠ "high" := by
  refine ⟨rfl, rfl, by decide⟩

/-- `List.find?` returns the first satisfying element. -/
theorem find?_first {α : Type} (p : α → Bool) (l : List α) :
    (∀ a, l.find? p = some a →
      p a = true ∧ ∃ pre post, l = pre ++ a :: post ∧ ∀ u ∈ pre, p u = false) ∧
    (l.find? p = none → ∀ a ∈ l, p a = false) := by
  induction l with
  | nil => exact ⟨fun a h => by simp [List.find?] at h, fun _ a h => absurd h (List.not_mem_nil a)⟩
  | cons b rest ih =>
    constructor
    · intro a ha
      cases hpb : p b with
      | true =>
        rw [List.find?_cons_of_pos rest hpb] at ha
        obtain rfl : b = a := by injection ha
        exact ⟨hpb, [], rest, rfl, fun u hu => absurd hu (List.not_mem_nil u)⟩
      | false =>
        rw [List.find?_cons_of_neg rest (by simp [hpb])] at ha
        obtain ⟨hpa, pre, post, hsplit, hpre⟩ := ih.1 a ha
        refine ⟨hpa, b :: pre, post, by rw [hsplit]; rfl, ?_⟩
        intro u hu
        rcases List.mem_cons.mp hu with rfl | hu'
        · exact hpb
        · exact hpre u hu'
    · intro hnone a ha
      cases hpb : p b with
      | true => rw [List.find?_cons_of_pos rest hpb] at hnone; exact Option.noConfusion hnone
      | false =>
        rw [List.find?_cons_of_neg rest (by simp [hpb])] at hnone
        rcases List.mem_cons.mp ha with rfl | ha'
        · exact hpb
        · exact ih.2 hnone a ha'

/-- C6 (amended): `startDialogue` ignores priority metadata and
availability conditions entirely: it selects the **first registered**
tree (in registration order) whose `characterId` matches, entering that
tree's own start node when no explicit node id is given; when no
registered tree matches, no dialogue starts.  (Priority-descending
selection is implemented by `findDialogueForCharacter` in the dialogue
loader, but `startDialogue` does not use it.) -/
theorem c6_startDialogue_first_match
    (registeredTrees : List (String × DialogueTree)) (characterId : String) :
    (∀ tree nodeId,
      startDialogueSelection registeredTrees characterId none = some (tree, nodeId) →
      tree.characterId = characterId ∧ nodeId = tree.startNode ∧
      ∃ pre post, registeredTrees.map Prod.snd = pre ++ tree :: post ∧
        ∀ u ∈ pre, u.characterId ≠ characterId) ∧
    (startDialogueSelection registeredTrees characterId none = none →
      ∀ t ∈ registeredTrees.map Prod.snd, t.characterId ≠ characterId) := by
  constructor
  · intro tree nodeId hsel
    unfold startDialogueSelection at hsel
    cases hf : (registeredTrees.map Prod.snd).find? (fun t => t.characterId == characterId) with
    | none => rw [hf] at hsel; exact Option.noConfusion hsel
    | some tree' =>
      rw [hf] at hsel
      obtain ⟨rfl, rfl⟩ : tree' = tree ∧ tree'.startNode = nodeId := by
        have := hsel
        injection this with h1
        exact ⟨congrArg Prod.fst h1, congrArg Prod.snd h1⟩
      obtain ⟨hp, pre, post, hsplit, hpre⟩ :=
        (find?_first (fun t => t.characterId == characterId) (registeredTrees.map Prod.snd)).1
          tree' hf
      refine ⟨by simpa using hp, rfl, pre, post, hsplit, ?_⟩
      intro u hu
      have := hpre u hu
      simpa using this
  · intro hnone t ht
    unfold startDialogueSelection at hnone
    cases hf : (registeredTrees.map Prod.snd).find? (fun t => t.characterId == characterId) with
    | none =>
      have := (find?_first (fun t => t.characterId == characterId)
        (registeredTrees.map Prod.snd)).2 hf t ht
      simpa using this
    | some tree' => rw [hf] at hnone; exact Option.noConfusion hnone

/-! ### Persistence (`saveGame` / `loadGame` / `getSaveSlots` /
`deleteSave` in `GameState.ts`)

The whole save collection lives in one `localStorage` blob under
`'marble-swindle-saves'`.  `getSaveSlots` parses it (catching parse
errors to `{}`), `saveGame` writes `saves[slot] = saveData` and stores
the serialisation, `loadGame` reads `saves[slot]` and, when truthy,
replaces the in-memory state with `{ ...saveData.gameState }` -- with
no structural validation of the parsed data.

Because the stored data is untyped at runtime, the parsed values are
modelled by a JSON value type, and the in-memory game-state object is
likewise carried as a JSON value in this model.  JS indexes the parsed
object with the canonical decimal string of the slot number; that
conversion is injective, so an object (or array) save collection is
modelled keyed by the slot number itself, non-numeric keys of a corrupt
blob being unaddressable by any slot.  A primitive parsed blob
(`number`/`string`/`boolean`/`null`) rejects the strict-mode property
write in `saveGame` with a `TypeError`, which the `catch` turns into
`false` with nothing written. -/

/-- A JSON value (what `JSON.parse` can produce). -/
inductive Json where
  | null
  | b (v : Bool)
  | num (v : ℚ)
  | str (s : String)
  | arr (items : List Json)
  | obj (fields : List (String × Json))

/-- The contents of the `'marble-swindle-saves'` storage key. -/
inductive SavesBlob where
  | missing                               -- `getItem` returned null
  | unparseable                           -- `JSON.parse` throws
  | parsed (slots : List (Int × Json))    -- an object/array, integer-addressable entries
  | parsedOther (v : Json)                -- a parsed primitive (not object/array)

/-- JS truthiness of a JSON value. -/
def jsTruthyV : Json → Bool
  | .null => false
  | .b v => v
  | .num q => !(q == 0)
  | .str s => !(s == "")
  | .arr _ => true
  | .obj _ => true

/-- JS truthiness of a possibly-undefined value. -/
def jsTruthy : Option Json → Bool
  | none => false
  | some v => jsTruthyV v

/-- JS property read `v[key]` on a JSON value. -/
def jsGetField (v : Json) (key : String) : Option Json :=
  match v with
  | .obj fields => lookupKey key fields
  | _ => none

/-- JS object spread `{ ...v }`: copies the own enumerable properties;
spreading `undefined`, `null`, or another primitive (strings aside)
yields `{}`, and string/array elements become indexed properties. -/
def jsSpread (v : Option Json) : Json :=
  match v with
  | some (.obj fields) => .obj fields
  | some (.arr items) => .obj (items.enum.map (fun p => (toString p.1, p.2)))
  | some (.str s) => .obj (s.toList.enum.map (fun p => (toString p.1, .str (String.mk [p.2]))))
  | _ => .obj []

/-- `getSaveSlots` from `GameState.ts`, as the slot-indexed view of the
blob: `data ? JSON.parse(data) : {}`, with any parse error caught to
`{}`.  Reading `saves[slot]` on the result gives: -/
def getSlot (blob : SavesBlob) (slot : Int) : Option Json :=
  match blob with
  | .missing => none
  | .unparseable => none
  | .parsed slots => lookupKey slot slots
  | .parsedOther v =>
      match v with
      | .str s => if 0 ≤ slot ∧ slot.toNat < s.length then
            some (.str (String.mk [s.toList.getD slot.toNat ' '])) else none
      | _ => none

/-- The `SaveData` record built by `saveGame` (`Date.now()` is the
external `timestamp` parameter; `slotName || Save ${slot}`). -/
def mkSaveData (timestamp : Int) (slotName : Option String) (slot : Int)
    (current : Json) : Json :=
  .obj [("version", .str "1.0.0"),
        ("timestamp", .num timestamp),
        ("slotName", .str
          (match slotName with
           | some s => if s = "" then "Save " ++ toString slot else s
           | none => "Save " ++ toString slot)),
        ("gameState", jsSpread (some current))]

/-- `saveGame` from `GameState.ts`: read the collection, set
`saves[slot]`, store the serialisation; any thrown error (e.g. the
property write on a primitive) is caught and reported as `false` with
the stored blob unchanged. -/
def saveGame (blob : SavesBlob) (slot : Int) (timestamp : Int)
    (slotName : Option String) (current : Json) : Bool × SavesBlob :=
  let saveData := mkSaveData timestamp slotName slot current
  match blob with
  | .missing => (true, .parsed [(slot, saveData)])
  | .unparseable => (true, .parsed [(slot, saveData)])
  | .parsed slots => (true, .parsed (mapSet slots slot saveData))
  | .parsedOther v => (false, .parsedOther v)

/-- `loadGame` from `GameState.ts`: a falsy `saves[slot]` (absent slot
included) returns `false` leaving the state object untouched; a truthy
one replaces the state with `{ ...saveData.gameState }` and returns
`true`, without validating the structure. -/
def loadGame (blob : SavesBlob) (slot : Int) (current : Json) : Bool × Json :=
  match getSlot blob slot with
  | none => (false, current)
  | some saveData =>
      if jsTruthyV saveData = false then (false, current)
      else (true, jsSpread (jsGetField saveData "gameState"))

/-! ### Claim C8: load failure leaves the state untouched -/

/-- A save blob whose slot 1 holds a parseable but structurally corrupt
entry (an object without a `gameState` field). -/
def c8Blob : SavesBlob := .parsed [(1, .obj [("foo", .num 1)])]

/-- An in-memory state object. -/
def c8State : Json := .obj [("currentRoom", .str "sinkhole")]

/-- C8 counterexample: loading slot 1 of `c8Blob`, whose stored
structure is corrupt (it is not a `SaveData` record at all), does not
return the failure indicator: `loadGame` returns `true` and replaces
the current state with the spread of the missing `gameState` field,
i.e. the empty object -- refuting both the `false` result and the
state-untouched part of the claim for corrupt-but-parseable slots. -/
theorem c8_loadGame_counterexample :
    loadGame c8Blob 1 c8State = (true, Json.obj []) ∧ Json.obj [] ≠ c8State := by
  refine ⟨rfl, ?_⟩
  intro hcon
  rw [c8State] at hcon
  exact List.noConfusion (Json.obj.inj hcon)

/-- C8 (amended): loading from a slot that is absent -- no entry for
that slot number, a missing blob, or an unparseable (corrupt) blob --
or whose entry is falsy returns `false` and leaves the current state
completely unchanged; only the truthy-entry path replaces the state
(and it does so without structural validation). -/
theorem c8_loadGame_failure_keeps_state (blob : SavesBlob) (slot : Int)
    (current : Json) (h : jsTruthy (getSlot blob slot) = false) :
    loadGame blob slot current = (false, current) := by
  unfold loadGame
  cases hs : getSlot blob slot with
  | none => rfl
  | some sd =>
    rw [hs] at h
    have h' : jsTruthyV sd = false := h
    show (if jsTruthyV sd = false then ((false : Bool), current)
      else (true, jsSpread (jsGetField sd "gameState"))) = (false, current)
    rw [if_pos h']

/-- Witness for C8's amended claim: an unparseable blob and an absent
slot both fail and keep the state. -/
theorem c8_loadGame_failure_keeps_state_witness :
    jsTruthy (getSlot SavesBlob.unparseable 1) = false ∧
    loadGame SavesBlob.unparseable 1 c8State = (false, c8State) :=
  ⟨by decide, c8_loadGame_failure_keeps_state SavesBlob.unparseable 1 c8State (by decide)⟩

/-! ### Claim C10: saving touches only its own slot -/

/-- Updating one key of an association list (in either `mapSet` branch)
leaves the other keys' lookups unchanged. -/
theorem lookupKey_map_update_ne {κ α : Type} [DecidableEq κ]
    (m : List (κ × α)) (k k' : κ) (v : α) (h : k' ≠ k) :
    lookupKey k' (m.map (fun p => if p.1 = k then (k, v) else p)) = lookupKey k' m := by
  induction m with
  | nil => rfl
  | cons p rest ih =>
    by_cases hp : p.1 = k
    · rw [List.map_cons, if_pos hp]
      show (if k = k' then some v else _) = (if p.1 = k' then some p.2 else lookupKey k' rest)
      rw [if_neg (fun hkk => h hkk.symm), if_neg (by rw [hp]; exact fun hkk => h hkk.symm)]
      exact ih
    · rw [List.map_cons, if_neg hp]
      show (if p.1 = k' then some p.2 else _) = (if p.1 = k' then some p.2 else lookupKey k' rest)
      by_cases hpk : p.1 = k'
      · rw [if_pos hpk, if_pos hpk]
      · rw [if_neg hpk, if_neg hpk]
        exact ih

/-- Appending a fresh key at the end leaves the other keys' lookups
unchanged. -/
theorem lookupKey_append_ne {κ α : Type} [DecidableEq κ]
    (m : List (κ × α)) (k k' : κ) (v : α) (h : k' ≠ k) :
    lookupKey k' (m ++ [(k, v)]) = lookupKey k' m := by
  induction m with
  | nil =>
    show (if k = k' then some v else lookupKey k' []) = none
    rw [if_neg (fun hkk => h hkk.symm)]
    rfl
  | cons p rest ih =>
    show (if p.1 = k' then some p.2 else _) = (if p.1 = k' then some p.2 else lookupKey k' rest)
    by_cases hpk : p.1 = k'
    · rw [if_pos hpk, if_pos hpk]
    · rw [if_neg hpk, if_neg hpk]
      exact ih

/-- Updating one key with `mapSet` leaves the other keys' lookups
unchanged. -/
theorem lookupKey_mapSet_ne {κ α : Type} [DecidableEq κ]
    (m : List (κ × α)) (k k' : κ) (v : α) (h : k' ≠ k) :
    lookupKey k' (mapSet m k v) = lookupKey k' m := by
  unfold mapSet
  by_cases hc : m.any (fun p => p.1 = k)
  · rw [if_pos hc]
    exact lookupKey_map_update_ne m k k' v h
  · rw [if_neg hc]
    exact lookupKey_append_ne m k k' v h

/-- C10: `saveGame slot` modifies only that slot of the persisted save
collection: for every other slot `m ≠ slot`, the `SaveData` value
readable at slot `m` before the call is exactly the value readable at
slot `m` afterwards. -/
theorem c10_saveGame_preserves_other_slots (blob : SavesBlob)
    (slot m timestamp : Int) (slotName : Option String) (current : Json)
    (v : Json) (hm : m ≠ slot) (hv : getSlot blob m = some v) :
    getSlot (saveGame blob slot timestamp slotName current).2 m = some v := by
  cases blob with
  | missing => exact Option.noConfusion hv
  | unparseable => exact Option.noConfusion hv
  | parsedOther w => exact hv
  | parsed slots =>
    show lookupKey m (mapSet slots slot (mkSaveData timestamp slotName slot current)) = some v
    rw [lookupKey_mapSet_ne slots slot m (mkSaveData timestamp slotName slot current) hm]
    exact hv

/-- Witness for C10 at a concrete two-slot collection. -/
theorem c10_saveGame_preserves_other_slots_witness :
    (2 : Int) ≠ 1 ∧
    getSlot (saveGame (.parsed [(1, .b true), (2, .str "keep")]) 1 77 none c8State).2 2 =
      some (.str "keep") :=
  ⟨by decide,
   c10_saveGame_preserves_other_slots (.parsed [(1, .b true), (2, .str "keep")])
     1 2 77 none c8State (.str "keep") (by decide) rfl⟩

/-- Witness for C6's amended claim at the concrete registry. -/
theorem c6_startDialogue_first_match_witness :
    (convertToEngineFormat c6LowTree).characterId = "npc" ∧
    "s" = (convertToEngineFormat c6LowTree).startNode ∧
    ∃ pre post, c6Loaded.registeredTrees.map Prod.snd =
      pre ++ (convertToEngineFormat c6LowTree) :: post ∧
      ∀ u ∈ pre, u.characterId ≠ "npc" :=
  (c6_startDialogue_first_match c6Loaded.registeredTrees "npc").1
    (convertToEngineFormat c6LowTree) "s" rfl

/-! ### The action queue of the dispatcher (`GameScene.ts`)

`GameScene` keeps `this.actionQueue : QueuedAction[]`.  Every click
entry point **assigns a fresh array** to the queue (`this.actionQueue =
[...]`) and calls `processNextAction()`, which pops one entry at a
time: a `walk` entry starts pathfinding-driven movement and leaves the
queue suspended until `onWalkComplete` (which signals the script system
and calls `processNextAction` again); every other entry runs its
effect -- a script via `runScriptWithContext`, or the `interact`
callback -- and then continues with the next entry.  The handlers'
world-state mutations are irrelevant here; the model records which
non-walk actions ever ran their effect in `fired`.  `walkTo` completes
immediately when `findPath` yields fewer than two points; that
predicate is the external oracle `iw` (instant walk). -/

/-- `QueuedAction` from `types/game.ts`, specialised per `type` tag
(the `interact` entry's `onComplete` closure is abstracted by the label
of the effect it would run). -/
inductive QueuedAction where
  | walk (target : Point)
  | interact (target : Option Point) (effect : String)
  | use (hotspotId : String)
  | useItem (hotspotId itemId : String)
  | look (hotspotId : String)
  | talk (characterId : String)

/-- `Hotspot` from `types/game.ts` (the fields the dispatcher uses). -/
structure Hotspot where
  id : String
  name : String
  polygon : Polygon
  interactionPoint : Point
  cursor : String
  lookScript : Option (List ScriptCommand) := none
  useScript : Option (List ScriptCommand) := none
  useWithItem : List (String × List ScriptCommand) := []
  condition : Option String := none

/-- The dispatcher state of `GameScene`. -/
structure SceneState where
  actionQueue : List QueuedAction
  currentAction : Option QueuedAction
  walkTarget : Option Point       -- the in-flight walk (isWalking/playerPath)
  playerPos : Point
  fired : List QueuedAction       -- non-walk actions whose effect has run

/-- `processNextAction` from `GameScene.ts`, draining the given queue:
pop an entry; a `walk` either completes instantly (degenerate path,
`onWalkComplete` continues the queue) or suspends with the rest of the
queue pending; any other entry runs its effect and continues. -/
def processQueue (iw : Point → Point → Bool) :
    List QueuedAction → SceneState → SceneState
  | [], st => { st with actionQueue := [], currentAction := none }
  | a :: rest, st =>
      match a with
      | .walk t =>
          if iw st.playerPos t then
            processQueue iw rest
              { st with actionQueue := rest, currentAction := some a, walkTarget := none }
          else
            { st with actionQueue := rest, currentAction := some a, walkTarget := some t }
      | _ =>
          processQueue iw rest
            { st with actionQueue := rest, currentAction := some a, fired := st.fired ++ [a] }

/-- `processNextAction` on the state's own queue. -/
def processNextAction (iw : Point → Point → Bool) (st : SceneState) : SceneState :=
  processQueue iw st.actionQueue st

/-- `queueAction` from `GameScene.ts`: **replace** the queue with the
single new action and process. -/
def queueAction (iw : Point → Point → Bool) (a : QueuedAction)
    (st : SceneState) : SceneState :=
  processNextAction iw { st with actionQueue := [a] }

/-- The interact entry built by `queueHotspotInteraction` (a `useItem`
when an inventory item is armed, otherwise a `use`). -/
def hotspotInteractAction (hotspot : Hotspot) (selectedItem : Option String) :
    QueuedAction :=
  match selectedItem with
  | some itemId => .useItem hotspot.id itemId
  | none => .use hotspot.id

/-- `queueHotspotInteraction` from `GameScene.ts`: **replace** the
queue with exactly walk-to-interaction-point then the effect. -/
def queueHotspotInteraction (iw : Point → Point → Bool) (hotspot : Hotspot)
    (selectedItem : Option String) (st : SceneState) : SceneState :=
  processNextAction iw
    { st with actionQueue :=
        [.walk hotspot.interactionPoint, hotspotInteractAction hotspot selectedItem] }

/-- `queueExitInteraction` from `GameScene.ts`: walk to the exit
polygon's centre, then the room-change effect. -/
def queueExitInteraction (iw : Point → Point → Bool) (exitId : String)
    (exitCenter : Point) (targetPosition : Option Point)
    (st : SceneState) : SceneState :=
  processNextAction iw
    { st with actionQueue := [.walk exitCenter, .interact targetPosition exitId] }

/-- `onWalkComplete` from `GameScene.ts`: movement has delivered the
player to the walk target; clear the walking state, signal the script
system, and continue processing the queue. -/
def onWalkComplete (iw : Point → Point → Bool) (st : SceneState) : SceneState :=
  processNextAction iw
    { st with
      walkTarget := none
      playerPos := match st.walkTarget with | some t => t | none => st.playerPos }

/-! ### Claim C9: a new click replaces the queue outright -/

/-- C9: (a) after any new click -- a ground click (`queueAction` with a
single walk) or a hotspot click (`queueHotspotInteraction`) -- nothing
of the previously queued action chain remains: the pending queue is
empty, or holds exactly the new click's own interact step; (b) in the
scenario where a hotspot click has a walk in flight with its interact
step queued behind it, a new ground click discards that pending
interact step, and after the walk completes and the queue drains,
no interaction effect has ever fired -- the pre-click interaction's
effect never runs. -/
theorem c9_click_replaces_queue (iw : Point → Point → Bool) :
    (∀ (st : SceneState) (p : Point),
      (queueAction iw (.walk p) st).actionQueue = []) ∧
    (∀ (st : SceneState) (h : Hotspot) (sel : Option String),
      (queueHotspotInteraction iw h sel st).actionQueue = [] ∨
      (queueHotspotInteraction iw h sel st).actionQueue = [hotspotInteractAction h sel]) ∧
    (∀ (st0 : SceneState) (h : Hotspot) (p : Point),
      st0.fired = [] → (∀ q r, iw q r = false) →
      (onWalkComplete iw
        (queueAction iw (.walk p) (queueHotspotInteraction iw h none st0))).fired = [] ∧
      (onWalkComplete iw
        (queueAction iw (.walk p) (queueHotspotInteraction iw h none st0))).actionQueue = []) := by
  refine ⟨?_, ?_, ?_⟩
  · intro st p
    by_cases hiw : iw st.playerPos p
    · simp [queueAction, processNextAction, processQueue, hiw]
    · simp [queueAction, processNextAction, processQueue, hiw]
  · intro st h sel
    by_cases hiw : iw st.playerPos h.interactionPoint
    · left
      cases sel <;>
        simp [queueHotspotInteraction, processNextAction, processQueue, hiw,
          hotspotInteractAction]
    · right
      simp [queueHotspotInteraction, processNextAction, processQueue, hiw]
  · intro st0 h p hf hiw
    have h1 : queueHotspotInteraction iw h none st0 =
        { st0 with
          actionQueue := [hotspotInteractAction h none]
          currentAction := some (.walk h.interactionPoint)
          walkTarget := some h.interactionPoint } := by
      simp [queueHotspotInteraction, processNextAction, processQueue, hiw]
    have h2 : queueAction iw (.walk p) (queueHotspotInteraction iw h none st0) =
        { st0 with
          actionQueue := []
          currentAction := some (.walk p)
          walkTarget := some p } := by
      rw [h1]
      simp [queueAction, processNextAction, processQueue, hiw]
    rw [h2]
    unfold onWalkComplete processNextAction processQueue
    exact ⟨hf, rfl⟩

/-- Witness for C9 at a concrete idle scene and hotspot. -/
theorem c9_click_replaces_queue_witness :
    ([] : List QueuedAction) = [] ∧
    ((onWalkComplete (fun _ _ => false)
      (queueAction (fun _ _ => false) (.walk ⟨1, 1⟩)
        (queueHotspotInteraction (fun _ _ => false)
          ⟨"door", "Door", ⟨[]⟩, ⟨5, 5⟩, "use", none, none, [], none⟩ none
          ⟨[], none, none, ⟨0, 0⟩, []⟩))).fired = [] ∧
     (onWalkComplete (fun _ _ => false)
      (queueAction (fun _ _ => false) (.walk ⟨1, 1⟩)
        (queueHotspotInteraction (fun _ _ => false)
          ⟨"door", "Door", ⟨[]⟩, ⟨5, 5⟩, "use", none, none, [], none⟩ none
          ⟨[], none, none, ⟨0, 0⟩, []⟩))).actionQueue = []) :=
  ⟨rfl,
   (c9_click_replaces_queue (fun _ _ => false)).2.2
     ⟨[], none, none, ⟨0, 0⟩, []⟩
     ⟨"door", "Door", ⟨[]⟩, ⟨5, 5⟩, "use", none, none, [], none⟩
     ⟨1, 1⟩ rfl (fun _ _ => rfl)⟩

/-! ### Claim C5: the `isRunningScript` flag under nested runs

`runScriptWithContext` (`ScriptRunner.ts`) sets the module-level
boolean `isRunningScript` before running a list and clears it in
`finally`.  The `startDialogue` script command emits a `'dialogue'`
event and suspends on `waitForDialogueComplete()`; the presentation
layer (spec §6: the `start-dialogue` command into the core, and the
`dialogue-ended` acknowledgement) reacts by calling
`DialogueManager.startDialogue`, whose `enterNode` runs the node's
`onEnter` list through **another** `runScriptWithContext`, and calls
`signalDialogueComplete` when the tree ends.

This instrumented runner models that flow with acknowledgements
delivered promptly (each `say`/`narrate` dismissal and dialogue
advance arrives as soon as it is awaited), threading the flag and a
trace that records, for each executed command, the command tag and the
value `getIsRunningScript()` would return as the command starts.
Recursion is bounded by explicit fuel (each nested step consumes one
unit; any fuel bound large enough for the program gives the run's
value). -/

/-- The runner state: world state, the `isRunningScript` flag, the
dialogue manager's `isDialogueActive`, and the instrumentation trace
of (command tag, flag value at command start). -/
structure RunnerState where
  gs : GameState
  isRunningScript : Bool
  isDialogueActive : Bool
  trace : List (String × Bool)

/-- The `type` tag of a script command. -/
def cmdTag : ScriptCommand → String
  | .say _ _ _ => "say"
  | .narrate _ => "narrate"
  | .thought _ => "thought"
  | .setFlag _ _ => "setFlag"
  | .incFlag _ _ => "incFlag"
  | .giveItem _ => "giveItem"
  | .takeItem _ => "takeItem"
  | .enableHotspot _ _ => "enableHotspot"
  | .teleport _ _ => "teleport"
  | .goToRoom _ _ => "goToRoom"
  | .playSound _ => "playSound"
  | .playMusic _ _ => "playMusic"
  | .stopMusic _ => "stopMusic"
  | .wait _ => "wait"
  | .animate _ _ => "animate"
  | .walk _ _ => "walk"
  | .face _ _ => "face"
  | .startDialogue _ _ => "startDialogue"
  | .ifCmd _ _ _ => "if"
  | .fadeOut _ => "fadeOut"
  | .fadeIn _ => "fadeIn"
  | .cutscene _ => "cutscene"
  | .reputation _ => "reputation"
  | .puzzleSolved _ => "puzzleSolved"

/-- `endDialogue` from `DialogueManager.ts`: clear the active tree and
notify listeners (whose `signalDialogueComplete` resumes the waiting
interpreter). -/
def endDialogueT (st : RunnerState) : RunnerState :=
  { st with isDialogueActive := false }

/-- `filterChoices` from `DialogueManager.ts`: a choice passes unless
its condition is truthy and fails, or it is a `once` choice already
recorded as selected (keyed `treeId:choiceId`). -/
def filterChoices (ev : String → GameState → Option Bool) (gs : GameState)
    (tree : DialogueTree) (choices : List DialogueChoice) : List DialogueChoice :=
  choices.filter (fun choice =>
    match choice.condition with
    | some cond =>
        if cond ≠ "" ∧ evaluateCondition ev cond gs = false then false
        else if boolTruthy choice.once ∧
            hasSelectedChoice gs (tree.id ++ ":" ++ choice.id) then false
        else true
    | none =>
        if boolTruthy choice.once ∧
            hasSelectedChoice gs (tree.id ++ ":" ++ choice.id) then false
        else true)

/-- `handleAutoAdvance`'s chain after a falsy `next`: terminal flag,
else end when no (or empty) choices, else stay (choices pending). -/
def autoAdvanceFallback (node : DialogueNode) (st : RunnerState) : RunnerState :=
  if boolTruthy node.endConversation then endDialogueT st
  else
    match node.choices with
    | some cs => if cs.length = 0 then endDialogueT st else st
    | none => endDialogueT st

mutual

/-- Instrumented `executeCommand`: record the tag and current flag,
then perform the world-state effect; `startDialogue` hands control to
the dialogue manager (as the presentation layer does on the
`'dialogue'` event) and resumes when the tree has ended; `if` runs one
nested list in place. -/
def execCommandT (reg : List (String × DialogueTree))
    (ev : String → GameState → Option Bool) :
    Nat → ScriptCommand → RunnerState → RunnerState
  | 0, _, st => st
  | fuel + 1, cmd, st =>
    let st1 := { st with trace := st.trace ++ [(cmdTag cmd, st.isRunningScript)] }
    match cmd with
    | .startDialogue characterId nodeId => startDialogueT reg ev fuel characterId nodeId st1
    | .ifCmd condition thenCmds elseCmds =>
        if evaluateCondition ev condition st1.gs then runScriptT reg ev fuel thenCmds st1
        else
          match elseCmds with
          | some cmds => runScriptT reg ev fuel cmds st1
          | none => st1
    | c => { st1 with gs := executeCommand ev c st1.gs }

/-- Instrumented `runScript`: commands in order. -/
def runScriptT (reg : List (String × DialogueTree))
    (ev : String → GameState → Option Bool) :
    Nat → List ScriptCommand → RunnerState → RunnerState
  | 0, _, st => st
  | _ + 1, [], st => st
  | fuel + 1, cmd :: rest, st =>
      runScriptT reg ev fuel rest (execCommandT reg ev fuel cmd st)

/-- Instrumented `runScriptWithContext`: `isRunningScript = true`, run,
`finally` `isRunningScript = false`. -/
def runScriptWithContextT (reg : List (String × DialogueTree))
    (ev : String → GameState → Option Bool) :
    Nat → List ScriptCommand → RunnerState → RunnerState
  | 0, _, st => st
  | fuel + 1, cmds, st =>
      let st1 := runScriptT reg ev fuel cmds { st with isRunningScript := true }
      { st1 with isRunningScript := false }

/-- Instrumented `DialogueManager.startDialogue`: first registered tree
of the character, then enter `startNodeId || tree.startNode`. -/
def startDialogueT (reg : List (String × DialogueTree))
    (ev : String → GameState → Option Bool) :
    Nat → String → Option String → RunnerState → RunnerState
  | 0, _, _, st => st
  | fuel + 1, characterId, startNodeId, st =>
      match (reg.map Prod.snd).find? (fun t => t.characterId == characterId) with
      | none => st
      | some tree =>
          let nodeId :=
            match startNodeId with
            | some s => if s = "" then tree.startNode else s
            | none => tree.startNode
          enterNodeT reg ev fuel tree nodeId { st with isDialogueActive := true }

/-- Instrumented `enterNode`: record the visit, run `onEnter` through
`runScriptWithContext`, then present choices (suspending), or -- after
the prompt dismissal -- advance. -/
def enterNodeT (reg : List (String × DialogueTree))
    (ev : String → GameState → Option Bool) :
    Nat → DialogueTree → String → RunnerState → RunnerState
  | 0, _, _, st => st
  | fuel + 1, tree, nodeId, st =>
      match lookupKey nodeId tree.nodes with
      | none => endDialogueT st
      | some node =>
          let st1 := { st with gs := recordDialogueVisit (tree.id ++ ":" ++ nodeId) st.gs }
          let st2 :=
            match node.onEnter with
            | some cmds => runScriptWithContextT reg ev fuel cmds st1
            | none => st1
          match node.choices with
          | some choices =>
              if choices.length > 0 then
                if (filterChoices ev st2.gs tree choices).length > 0 then st2
                else handleAutoAdvanceT reg ev fuel tree node st2
              else advanceDialogueT reg ev fuel tree node st2
          | none => advanceDialogueT reg ev fuel tree node st2

/-- Instrumented `advanceDialogue`: run `onExit` through
`runScriptWithContext`, then resolve the auto-advance. -/
def advanceDialogueT (reg : List (String × DialogueTree))
    (ev : String → GameState → Option Bool) :
    Nat → DialogueTree → DialogueNode → RunnerState → RunnerState
  | 0, _, _, st => st
  | fuel + 1, tree, node, st =>
      let st1 :=
        match node.onExit with
        | some cmds => runScriptWithContextT reg ev fuel cmds st
        | none => st
      handleAutoAdvanceT reg ev fuel tree node st1

/-- Instrumented `handleAutoAdvance`: a truthy `next` enters the next
node (or ends at the sentinel); otherwise the terminal/no-choice
fallback. -/
def handleAutoAdvanceT (reg : List (String × DialogueTree))
    (ev : String → GameState → Option Bool) :
    Nat → DialogueTree → DialogueNode → RunnerState → RunnerState
  | 0, _, _, st => st
  | fuel + 1, tree, node, st =>
      match node.next with
      | some nxt =>
          if nxt = "" then autoAdvanceFallback node st
          else if nxt = "end" then endDialogueT st
          else enterNodeT reg ev fuel tree nxt st
      | none => autoAdvanceFallback node st

end

/-- The dialogue tree of the C5 scenario: one node with an `onEnter`
script and a terminal marking. -/
def c5Tree : DialogueTree where
  id := "guide_intro"
  characterId := "guide"
  startNode := "n1"
  nodes := [("n1", { id := "n1", text := "hello",
                     onEnter := some [.narrate "hi"],
                     endConversation := some true })]

/-- The registered trees of the C5 scenario. -/
def c5Registry : List (String × DialogueTree) := [("guide_intro", c5Tree)]

/-- The top-level command list of the C5 scenario: start a dialogue
(whose node runs a nested onEnter list), then set a flag. -/
def c5Program : List ScriptCommand :=
  [.startDialogue "guide" none, .setFlag "a" (.n 1)]

/-- The initial runner state. -/
noncomputable def c5Start : RunnerState := ⟨createInitialState, false, false, []⟩

/-- The C5 scenario run as a top-level `runScriptWithContext`. -/
noncomputable def c5Run : RunnerState :=
  runScriptWithContextT c5Registry (fun _ _ => none) 12 c5Program c5Start

/-- C5 evaluation at the failing input: running the top-level list
`[startDialogue "guide", setFlag "a" 1]` -- where the dialogue node's
`onEnter` list is executed through a nested `runScriptWithContext` --
leaves the trace showing that the nested run's `finally` cleared the
global flag, so the second top-level command `setFlag` executes with
`getIsRunningScript() = false` while its top-level list has **not**
yet drained: the claim that the flag reads true throughout a top-level
run fails in the code. -/
theorem c5_flag_cleared_by_nested_run :
    c5Run.trace = [("startDialogue", true), ("narrate", true), ("setFlag", false)] ∧
    c5Run.isRunningScript = false ∧
    c5Run.gs.flags "a" = some (FlagValue.n 1) :=
  ⟨rfl, rfl, rfl⟩

/-! ### Pathfinding (`pathfinding.ts`)

Geometry over idealised real coordinates: JS `number` is `ℝ`,
`Math.sqrt` is `Real.sqrt`, `Math.max/min` are `max/min`.  The A*
`openSet.sort((a,b) => a.f - b.f)` is a stable ascending sort by `f`
(JS sort is stable; a stable sort is unique, so it is realised by
insertion sort), and `closedSet` keys points by their exact
coordinates (`x,y` strings).  A `PathNode`'s `parent` pointer chain is
represented by the reconstructed root-to-node path it denotes (the
source's final `while (node) path.unshift(node.point)` loop); parent
reassignment becomes replacing that path.  The unbounded `while
(openSet.length > 0)` loop is modelled with explicit fuel
`nodes.length + 2`: every iteration either returns or closes a point
that no open node may then re-enter, so the frontier drains within the
node count and the fuel guard (which returns the same degraded direct
line as an exhausted frontier) is never the live branch. -/

/-- `distance` from `pathfinding.ts`. -/
noncomputable def distance (a b : Point) : ℝ :=
  Real.sqrt ((b.x - a.x) * (b.x - a.x) + (b.y - a.y) * (b.y - a.y))

/-- The edge pairing of the ray-casting loop: `(points[i], points[j])`
with `j = i - 1`, and `j = n - 1` for `i = 0`. -/
def edgePairsPrev (pts : List Point) : List (Point × Point) :=
  match pts.getLast? with
  | none => []
  | some lst => pts.zip (lst :: pts.dropLast)

/-- The edge pairing of the boundary loops:
`(points[i], points[(i+1) % n])`. -/
def edgePairsNext (pts : List Point) : List (Point × Point) :=
  pts.zip (pts.drop 1 ++ pts.take 1)

/-- One ray-casting step of `isPointInPolygon`. -/
noncomputable def rayCastStep (point : Point) (inside : Bool)
    (pq : Point × Point) : Bool :=
  if (¬((pq.1.y > point.y) ↔ (pq.2.y > point.y))) ∧
      point.x < (pq.2.x - pq.1.x) * (point.y - pq.1.y) / (pq.2.y - pq.1.y) + pq.1.x
  then !inside else inside

/-- `isPointInPolygon` from `pathfinding.ts` (ray casting). -/
noncomputable def isPointInPolygon (point : Point) (polygon : Polygon) : Bool :=
  (edgePairsPrev polygon.points).foldl (rayCastStep point) false

/-- `closestPointOnLineSegment` from `pathfinding.ts`. -/
noncomputable def closestPointOnLineSegment (p a b : Point) : Point :=
  let dx := b.x - a.x
  let dy := b.y - a.y
  let lenSq := dx * dx + dy * dy
  if lenSq = 0 then a
  else
    let t := max 0 (min 1 (((p.x - a.x) * dx + (p.y - a.y) * dy) / lenSq))
    ⟨a.x + t * dx, a.y + t * dy⟩

/-- `getPolygonCenter` from `pathfinding.ts` (coordinate averages). -/
noncomputable def getPolygonCenter (polygon : Polygon) : Point :=
  ⟨(polygon.points.map Point.x).sum / polygon.points.length,
   (polygon.points.map Point.y).sum / polygon.points.length⟩

/-- One step of the closest-boundary-point fold of
`getClosestPointInPolygon`; `none` is the initial `Infinity`
min-distance. -/
noncomputable def closestEdgeStep (point : Point) (best : Point × Option ℝ)
    (pq : Point × Point) : Point × Option ℝ :=
  let closest := closestPointOnLineSegment point pq.1 pq.2
  let dist := distance point closest
  match best.2 with
  | none => (closest, some dist)
  | some m => if dist < m then (closest, some dist) else best

/-- The final inward nudge of `getClosestPointInPolygon`: move 2 units
from the closest boundary point toward the polygon centre. -/
noncomputable def nudgeTowardCenter (polygon : Polygon) (closestPoint : Point) : Point :=
  let center := getPolygonCenter polygon
  let dx := center.x - closestPoint.x
  let dy := center.y - closestPoint.y
  let len := Real.sqrt (dx * dx + dy * dy)
  if len > 0 then ⟨closestPoint.x + dx / len * 2, closestPoint.y + dy / len * 2⟩
  else closestPoint

/-- `getClosestPointInPolygon` from `pathfinding.ts`: a point already
inside is returned unchanged; otherwise the closest point over all
boundary edges (first edge winning ties, starting from `points[0]`
with infinite best distance), nudged 2 units toward the centre. -/
noncomputable def getClosestPointInPolygon (point : Point) (polygon : Polygon) : Point :=
  if isPointInPolygon point polygon then point
  else
    nudgeTowardCenter polygon
      ((edgePairsNext polygon.points).foldl (closestEdgeStep point)
        (polygon.points.headD ⟨0, 0⟩, none)).1

/-- `canWalkDirectly` from `pathfinding.ts`: both endpoints inside,
the midpoint inside, and the 4 additional samples along the segment
inside. -/
noncomputable def canWalkDirectly (start target : Point) (polygon : Polygon) : Bool :=
  isPointInPolygon start polygon &&
    (isPointInPolygon target polygon &&
      (isPointInPolygon ⟨(start.x + target.x) / 2, (start.y + target.y) / 2⟩ polygon &&
        ([1, 2, 3, 4] : List ℕ).all (fun i =>
          isPointInPolygon
            ⟨start.x + (target.x - start.x) * ((i : ℝ) / 5),
             start.y + (target.y - start.y) * ((i : ℝ) / 5)⟩ polygon)))

/-- `generateNavNodes` from `pathfinding.ts`: grid points of the
bounding box (spacing `gridSize`, `floor((max-min)/g) + 1` steps from
the min corner) that lie inside the polygon, plus the polygon vertices
inset 15 units toward the centre when that inset lands inside. -/
noncomputable def generateNavNodes (polygon : Polygon) (gridSize : ℝ) : List Point :=
  let pts := polygon.points
  let xs := pts.map Point.x
  let ys := pts.map Point.y
  let minX := match xs with | [] => 0 | v :: rest => rest.foldl min v
  let maxX := match xs with | [] => 0 | v :: rest => rest.foldl max v
  let minY := match ys with | [] => 0 | v :: rest => rest.foldl min v
  let maxY := match ys with | [] => 0 | v :: rest => rest.foldl max v
  let gridPts :=
    (List.range (Nat.floor ((maxX - minX) / gridSize) + 1)).flatMap
      (fun ix =>
        (List.range (Nat.floor ((maxY - minY) / gridSize) + 1)).filterMap
          (fun iy =>
            let p : Point := ⟨minX + ix * gridSize, minY + iy * gridSize⟩
            if isPointInPolygon p polygon then some p else none))
  let center := getPolygonCenter polygon
  let insetPts := pts.filterMap (fun p =>
    let dx := center.x - p.x
    let dy := center.y - p.y
    let len := Real.sqrt (dx * dx + dy * dy)
    if len > 0 then
      let inset : Point := ⟨p.x + dx / len * 15, p.y + dy / len * 15⟩
      if isPointInPolygon inset polygon then some inset else none
    else none)
  gridPts ++ insetPts

/-- `PathNode` from `pathfinding.ts`; the `parent` chain is carried as
the root-to-node point path it reconstructs to. -/
structure PathNode where
  point : Point
  g : ℝ
  h : ℝ
  f : ℝ
  path : List Point

/-- Stable ascending insertion by `f` (realising the stable JS sort
with comparator `a.f - b.f`). -/
noncomputable def insertByF (n : PathNode) : List PathNode → List PathNode
  | [] => [n]
  | m :: ms => if m.f < n.f then m :: insertByF n ms else n :: m :: ms

/-- Stable sort of the open set by ascending `f`. -/
noncomputable def sortByF : List PathNode → List PathNode
  | [] => []
  | n :: ns => insertByF n (sortByF ns)

/-- Does the open set hold a node at these exact coordinates
(the source's `openSet.find` by `x`/`y`)? -/
noncomputable def openSetHasPoint (os : List PathNode) (pt : Point) : Bool :=
  os.any (fun n => decide (n.point.x = pt.x ∧ n.point.y = pt.y))

/-- Update the first open node at the given coordinates when the new
route is cheaper (the source's `existing.g/f/parent` mutation). -/
noncomputable def updateExisting (pt : Point) (g f : ℝ) (newPath : List Point) :
    List PathNode → List PathNode
  | [] => []
  | n :: ns =>
      if n.point.x = pt.x ∧ n.point.y = pt.y then
        (if g < n.g then { n with g := g, f := f, path := newPath } :: ns else n :: ns)
      else n :: updateExisting pt g f newPath ns

/-- The neighbour-expansion loop of one A* iteration: skip closed or
unreachable points, relax an existing open node, or push a new one. -/
noncomputable def expandNeighbors (polygon : Polygon) (actualEnd : Point)
    (current : PathNode) (closed : List Point) (nodes : List Point)
    (openSet : List PathNode) : List PathNode :=
  nodes.foldl
    (fun os neighborPoint =>
      if closed.any (fun q => decide (q.x = neighborPoint.x ∧ q.y = neighborPoint.y)) then os
      else if canWalkDirectly current.point neighborPoint polygon = false then os
      else
        let g := current.g + distance current.point neighborPoint
        let h := distance neighborPoint actualEnd
        let f := g + h
        if openSetHasPoint os neighborPoint then
          updateExisting neighborPoint g f (current.path ++ [neighborPoint]) os
        else os ++ [⟨neighborPoint, g, h, f, current.path ++ [neighborPoint]⟩])
    openSet

/-- Index access `path[i]` (indices stay in range in the source). -/
def pointAt (path : List Point) (i : Nat) : Point := path.getD i ⟨0, 0⟩

/-- The inner lookahead of `smoothPath`: the furthest index (scanning
`path.length - 1` down to `current + 2`) directly visible from
`path[current]`, defaulting to the immediate next hop. -/
noncomputable def furthestVisible (path : List Point) (polygon : Polygon)
    (current : Nat) : Nat :=
  match (List.range' (current + 2) (path.length - (current + 2))).reverse.find?
      (fun i => canWalkDirectly (pointAt path current) (pointAt path i) polygon) with
  | some i => i
  | none => current + 1

/-- `find?` on the reversed descending candidate range yields an index
in `[current + 2, path.length)`. -/
theorem furthestVisible_bounds (path : List Point) (polygon : Polygon)
    (current : Nat) :
    current < furthestVisible path polygon current ∧
      (current + 1 < path.length → furthestVisible path polygon current < path.length) := by
  unfold furthestVisible
  cases hf : (List.range' (current + 2) (path.length - (current + 2))).reverse.find?
      (fun i => canWalkDirectly (pointAt path current) (pointAt path i) polygon) with
  | none =>
    exact ⟨Nat.lt_succ_self current, fun h => h⟩
  | some i =>
    have hmem : i ∈ (List.range' (current + 2) (path.length - (current + 2))).reverse :=
      List.mem_of_find?_eq_some hf
    rw [List.mem_reverse] at hmem
    rw [List.mem_range'] at hmem
    obtain ⟨h1, h2⟩ := hmem
    refine ⟨?_, fun h => ?_⟩
    · show current < i
      omega
    · show i < path.length
      omega

/-- The waypoint-dropping loop of `smoothPath`, from index `current`
with the partial result `acc`. -/
noncomputable def smoothLoop (path : List Point) (polygon : Polygon) :
    Nat → List Point → List Point
  | current, acc =>
      if current < path.length - 1 then
        smoothLoop path polygon (furthestVisible path polygon current)
          (acc ++ [pointAt path (furthestVisible path polygon current)])
      else acc
termination_by current _ => path.length - current
decreasing_by
  have := (furthestVisible_bounds path polygon current).1
  omega

/-- `smoothPath` from `pathfinding.ts`: paths of at most two points are
unchanged; otherwise greedily jump to the furthest visible waypoint. -/
noncomputable def smoothPath (path : List Point) (polygon : Polygon) : List Point :=
  if path.length ≤ 2 then path
  else smoothLoop path polygon 0 [pointAt path 0]

/-- The A* loop of `findPath`: pop the lowest-`f` node, return the
smoothed reconstruction when within the 5-unit goal radius, otherwise
close the node and expand its neighbours.  An exhausted frontier (and
the never-live fuel guard) falls back to the raw direct line. -/
noncomputable def aStarLoop (polygon : Polygon) (actualStart actualEnd : Point)
    (nodes : List Point) : Nat → List PathNode → List Point → List Point
  | 0, _, _ => [actualStart, actualEnd]
  | fuel + 1, openSet, closed =>
      match sortByF openSet with
      | [] => [actualStart, actualEnd]
      | current :: rest =>
          if distance current.point actualEnd < 5 then smoothPath current.path polygon
          else
            aStarLoop polygon actualStart actualEnd nodes fuel
              (expandNeighbors polygon actualEnd current (current.point :: closed) nodes rest)
              (current.point :: closed)

/-- `findPath` from `pathfinding.ts`: project both endpoints into the
polygon, take the direct two-point path when walkable, and otherwise
run A* over the generated navigation mesh plus the two projected
endpoints. -/
noncomputable def findPath (start target : Point) (polygon : Polygon) : List Point :=
  let actualStart := getClosestPointInPolygon start polygon
  let actualEnd := getClosestPointInPolygon target polygon
  if canWalkDirectly actualStart actualEnd polygon then [actualStart, actualEnd]
  else
    let nodes := generateNavNodes polygon 30 ++ [actualStart, actualEnd]
    aStarLoop polygon actualStart actualEnd nodes (nodes.length + 2)
      [⟨actualStart, 0, distance actualStart actualEnd,
        distance actualStart actualEnd, [actualStart]⟩] []

/-! ### Structural lemmas about smoothing and the A* loop -/

/-- `smoothLoop` only ever appends to its accumulator. -/
theorem smoothLoop_exists_append (path : List Point) (polygon : Polygon)
    (current : Nat) (acc : List Point) :
    ∃ ext, smoothLoop path polygon current acc = acc ++ ext := by
  induction current, acc using smoothLoop.induct path polygon with
  | case1 current acc h ih =>
    obtain ⟨ext, hext⟩ := ih
    rw [smoothLoop, if_pos h, hext]
    exact ⟨[pointAt path (furthestVisible path polygon current)] ++ ext,
      by rw [List.append_assoc]⟩
  | case2 current acc h =>
    rw [smoothLoop, if_neg h]
    exact ⟨[], (acc.append_nil).symm⟩

/-- When the accumulator currently ends at `path[current]`, the smooth
loop ends at the path's last waypoint. -/
theorem smoothLoop_getLast (path : List Point) (polygon : Polygon)
    (current : Nat) (acc : List Point) :
    current ≤ path.length - 1 → acc.getLast? = some (pointAt path current) →
    (smoothLoop path polygon current acc).getLast? =
      some (pointAt path (path.length - 1)) := by
  induction current, acc using smoothLoop.induct path polygon with
  | case1 current acc h ih =>
    intro hle hlast
    rw [smoothLoop, if_pos h]
    have hb := furthestVisible_bounds path polygon current
    have h2 : current + 1 < path.length := by omega
    have h3 := hb.2 h2
    exact ih (by omega) (List.getLast?_concat acc)
  | case2 current acc h =>
    intro hle hlast
    rw [smoothLoop, if_neg h]
    have hce : current = path.length - 1 := by omega
    rw [← hce]
    exact hlast

/-- `smoothPath` keeps a nonempty path nonempty and preserves its first
and last points. -/
theorem smoothPath_spec (path : List Point) (polygon : Polygon) (hne : path ≠ []) :
    smoothPath path polygon ≠ [] ∧
    (smoothPath path polygon).head? = path.head? ∧
    (smoothPath path polygon).getLast? = path.getLast? := by
  unfold smoothPath
  by_cases hlen : path.length ≤ 2
  · rw [if_pos hlen]
    exact ⟨hne, rfl, rfl⟩
  · rw [if_neg hlen]
    push_neg at hlen
    have hlast : path.getLast? = some (pointAt path (path.length - 1)) := by
      unfold pointAt
      rw [List.getLast?_eq_getElem?, List.getD_eq_getElem?_getD]
      cases path with
      | nil => exact absurd rfl hne
      | cons b t => simp
    obtain ⟨ext, hext⟩ := smoothLoop_exists_append path polygon 0 [pointAt path 0]
    refine ⟨?_, ?_, ?_⟩
    · rw [hext]
      simp
    · rw [hext]
      cases path with
      | nil => exact absurd rfl hne
      | cons b t => rfl
    · rw [smoothLoop_getLast path polygon 0 [pointAt path 0] (by omega) rfl, hlast]

/-- The endpoint bookkeeping carried by every open A* node: its stored
chain is a nonempty path from the projected start to its own point. -/
def InvNode (s : Point) (n : PathNode) : Prop :=
  n.path ≠ [] ∧ n.path.head? = some s ∧ n.path.getLast? = some n.point

/-- Two points with equal coordinates are equal. -/
theorem Point.ext_xy {a b : Point} (hx : a.x = b.x) (hy : a.y = b.y) : a = b := by
  cases a
  cases b
  simp_all

/-- Members of `insertByF n l` are `n` or members of `l`. -/
theorem mem_insertByF {n m : PathNode} :
    ∀ {l : List PathNode}, m ∈ insertByF n l → m = n ∨ m ∈ l := by
  intro l
  induction l with
  | nil =>
    intro hm
    rw [insertByF] at hm
    rcases List.mem_singleton.mp hm with h
    exact Or.inl h
  | cons p rest ih =>
    intro hm
    rw [insertByF] at hm
    by_cases hf : p.f < n.f
    · rw [if_pos hf] at hm
      rcases List.mem_cons.mp hm with h | h
      · exact Or.inr (h ▸ List.mem_cons_self p rest)
      · rcases ih h with h1 | h1
        · exact Or.inl h1
        · exact Or.inr (List.mem_cons_of_mem p h1)
    · rw [if_neg hf] at hm
      rcases List.mem_cons.mp hm with h | h
      · exact Or.inl h
      · exact Or.inr h

/-- Members of the sorted open set are members of the open set. -/
theorem mem_sortByF {m : PathNode} :
    ∀ {l : List PathNode}, m ∈ sortByF l → m ∈ l := by
  intro l
  induction l with
  | nil => intro hm; exact absurd hm (List.not_mem_nil m)
  | cons p rest ih =>
    intro hm
    rw [sortByF] at hm
    rcases mem_insertByF hm with h | h
    · exact h ▸ List.mem_cons_self p rest
    · exact List.mem_cons_of_mem p (ih h)

/-- Members of `updateExisting` are old members or the relaxed node. -/
theorem mem_updateExisting {pt : Point} {g f : ℝ} {newPath : List Point}
    {m : PathNode} :
    ∀ {l : List PathNode}, m ∈ updateExisting pt g f newPath l →
      m ∈ l ∨ ∃ n ∈ l, n.point.x = pt.x ∧ n.point.y = pt.y ∧
        m = { n with g := g, f := f, path := newPath } := by
  intro l
  induction l with
  | nil => intro hm; exact absurd hm (List.not_mem_nil m)
  | cons n ns ih =>
    intro hm
    rw [updateExisting] at hm
    by_cases hpt : n.point.x = pt.x ∧ n.point.y = pt.y
    · rw [if_pos hpt] at hm
      by_cases hg : g < n.g
      · rw [if_pos hg] at hm
        rcases List.mem_cons.mp hm with h | h
        · exact Or.inr ⟨n, List.mem_cons_self n ns, hpt.1, hpt.2, h⟩
        · exact Or.inl (List.mem_cons_of_mem n h)
      · rw [if_neg hg] at hm
        exact Or.inl hm
    · rw [if_neg hpt] at hm
      rcases List.mem_cons.mp hm with h | h
      · exact Or.inl (h ▸ List.mem_cons_self n ns)
      · rcases ih h with h1 | h1
        · exact Or.inl (List.mem_cons_of_mem n h1)
        · obtain ⟨q, hq, hqx, hqy, hqe⟩ := h1
          exact Or.inr ⟨q, List.mem_cons_of_mem n hq, hqx, hqy, hqe⟩

/-- A node whose chain extends the current node's chain by its own
point satisfies the invariant. -/
theorem InvNode_extend {s : Point} {current : PathNode} (hcur : InvNode s current)
    (pt : Point) : InvNode s ⟨pt, 0, 0, 0, current.path ++ [pt]⟩ := by
  obtain ⟨hne, hh, -⟩ := hcur
  refine ⟨by simp, ?_, List.getLast?_concat current.path⟩
  rw [← hh]
  cases hcp : current.path with
  | nil => exact absurd hcp hne
  | cons b t => rfl

/-- One neighbour-expansion step preserves the invariant on the open
set. -/
theorem expandNeighbors_inv (polygon : Polygon) (e : Point) (current : PathNode)
    (closed : List Point) (nodes : List Point) (s : Point)
    (hcur : InvNode s current) :
    ∀ (os : List PathNode), (∀ n ∈ os, InvNode s n) →
      ∀ m ∈ expandNeighbors polygon e current closed nodes os, InvNode s m := by
  unfold expandNeighbors
  induction nodes with
  | nil => intro os hos m hm; exact hos m hm
  | cons np rest ih =>
    intro os hos m hm
    rw [List.foldl_cons] at hm
    refine ih _ ?_ m hm
    intro n hn
    by_cases h1 : closed.any (fun q => decide (q.x = np.x ∧ q.y = np.y))
    · rw [if_pos h1] at hn
      exact hos n hn
    · rw [if_neg h1] at hn
      by_cases h2 : canWalkDirectly current.point np polygon = false
      · rw [if_pos h2] at hn
        exact hos n hn
      · rw [if_neg h2] at hn
        by_cases h3 : openSetHasPoint os np = true
        · rw [if_pos h3] at hn
          rcases mem_updateExisting hn with h4 | h4
          · exact hos n h4
          · obtain ⟨q, hq, hqx, hqy, hqe⟩ := h4
            obtain ⟨hne, hh, -⟩ := hcur
            refine ⟨?_, ?_, ?_⟩
            · rw [hqe]
              simp
            · rw [hqe]
              show (current.path ++ [np]).head? = some s
              rw [← hh]
              cases hcp : current.path with
              | nil => exact absurd hcp hne
              | cons b t => rfl
            · rw [hqe]
              show (current.path ++ [np]).getLast? = some q.point
              rw [List.getLast?_concat current.path]
              have : q.point = np := Point.ext_xy hqx hqy
              rw [this]
        · rw [if_neg h3] at hn
          rcases List.mem_append.mp hn with h4 | h4
          · exact hos n h4
          · have h5 : n = ⟨np, current.g + distance current.point np,
                distance np e, current.g + distance current.point np + distance np e,
                current.path ++ [np]⟩ := List.mem_singleton.mp h4
            obtain ⟨hne, hh, -⟩ := hcur
            refine ⟨?_, ?_, ?_⟩
            · rw [h5]
              simp
            · rw [h5]
              show (current.path ++ [np]).head? = some s
              rw [← hh]
              cases hcp : current.path with
              | nil => exact absurd hcp hne
              | cons b t => rfl
            · rw [h5]
              exact List.getLast?_concat current.path

/-- Unfolding the A* loop when the sorted frontier is empty. -/
theorem aStarLoop_empty (polygon : Polygon) (s e : Point) (nodes : List Point)
    (fuel : Nat) (openSet : List PathNode) (closed : List Point)
    (hsort : sortByF openSet = []) :
    aStarLoop polygon s e nodes (fuel + 1) openSet closed = [s, e] := by
  rw [aStarLoop, hsort]

/-- Unfolding one A* iteration on the popped lowest-`f` node. -/
theorem aStarLoop_cons (polygon : Polygon) (s e : Point) (nodes : List Point)
    (fuel : Nat) (current : PathNode) (rest : List PathNode)
    (openSet : List PathNode) (closed : List Point)
    (hsort : sortByF openSet = current :: rest) :
    aStarLoop polygon s e nodes (fuel + 1) openSet closed =
      if distance current.point e < 5 then smoothPath current.path polygon
      else
        aStarLoop polygon s e nodes fuel
          (expandNeighbors polygon e current (current.point :: closed) nodes rest)
          (current.point :: closed) := by
  rw [aStarLoop, hsort]

/-- The A* loop, started from any open set whose nodes satisfy the
invariant, returns a nonempty path that begins at the projected start
and ends at the projected end or at a popped point within the 5-unit
goal radius of it. -/
theorem aStarLoop_spec (polygon : Polygon) (s e : Point) (nodes : List Point) :
    ∀ (fuel : Nat) (openSet : List PathNode) (closed : List Point),
      (∀ n ∈ openSet, InvNode s n) →
      aStarLoop polygon s e nodes fuel openSet closed ≠ [] ∧
      (aStarLoop polygon s e nodes fuel openSet closed).head? = some s ∧
      ((aStarLoop polygon s e nodes fuel openSet closed).getLast? = some e ∨
        ∃ q, (aStarLoop polygon s e nodes fuel openSet closed).getLast? = some q ∧
          distance q e < 5) := by
  intro fuel
  induction fuel with
  | zero =>
    intro os closed hos
    exact ⟨by simp [aStarLoop], rfl, Or.inl rfl⟩
  | succ fuel ih =>
    intro os closed hos
    cases hsort : sortByF os with
    | nil =>
      rw [aStarLoop_empty polygon s e nodes fuel os closed hsort]
      exact ⟨by simp, rfl, Or.inl rfl⟩
    | cons current rest =>
      rw [aStarLoop_cons polygon s e nodes fuel current rest os closed hsort]
      have hmem : current ∈ os := mem_sortByF (hsort ▸ List.mem_cons_self current rest)
      have hcur : InvNode s current := hos current hmem
      by_cases hd : distance current.point e < 5
      · rw [if_pos hd]
        obtain ⟨hne, hh, hl⟩ := hcur
        obtain ⟨sne, shead, slast⟩ := smoothPath_spec current.path polygon hne
        exact ⟨sne, by rw [shead, hh],
          Or.inr ⟨current.point, by rw [slast, hl], hd⟩⟩
      · rw [if_neg hd]
        apply ih
        intro n hn
        refine expandNeighbors_inv polygon e current (current.point :: closed) nodes s
          hcur rest ?_ n hn
        intro q hq
        exact hos q (mem_sortByF (hsort ▸ List.mem_cons_of_mem current hq))

/-- C1 (amended): for every start, end, and walkable polygon (at least
three vertices, per the data model), `findPath` returns a non-empty
ordered point sequence that always begins at the projected start
(`getClosestPointInPolygon start`); it ends at the projected end in the
direct-walk and exhausted-frontier cases, and otherwise -- when the
graph search stops at a node within its 5-unit goal radius -- at a
point within 5 units of the projected end, which need not be the
projected end itself. -/
theorem c1_findPath_endpoints (start target : Point) (polygon : Polygon)
    (_hpoly : 3 ≤ polygon.points.length) :
    findPath start target polygon ≠ [] ∧
    (findPath start target polygon).head? =
      some (getClosestPointInPolygon start polygon) ∧
    ((findPath start target polygon).getLast? =
        some (getClosestPointInPolygon target polygon) ∨
      ∃ q, (findPath start target polygon).getLast? = some q ∧
        distance q (getClosestPointInPolygon target polygon) < 5) := by
  unfold findPath
  by_cases hdirect : canWalkDirectly (getClosestPointInPolygon start polygon)
      (getClosestPointInPolygon target polygon) polygon
  · rw [if_pos hdirect]
    exact ⟨by simp, rfl, Or.inl rfl⟩
  · rw [if_neg hdirect]
    apply aStarLoop_spec
    intro n hn
    have hn1 : n = ⟨getClosestPointInPolygon start polygon, 0,
        distance (getClosestPointInPolygon start polygon) (getClosestPointInPolygon target polygon),
        distance (getClosestPointInPolygon start polygon) (getClosestPointInPolygon target polygon),
        [getClosestPointInPolygon start polygon]⟩ := List.mem_singleton.mp hn
    rw [hn1]
    exact ⟨by simp, rfl, rfl⟩

/-- Witness for C1's amended claim at a concrete polygon. -/
theorem c1_findPath_endpoints_witness :
    3 ≤ (Polygon.mk [⟨0, 0⟩, ⟨100, 0⟩, ⟨100, 100⟩, ⟨0, 100⟩]).points.length ∧
    findPath ⟨10, 10⟩ ⟨90, 90⟩ (Polygon.mk [⟨0, 0⟩, ⟨100, 0⟩, ⟨100, 100⟩, ⟨0, 100⟩]) ≠ [] :=
  ⟨by norm_num,
   (c1_findPath_endpoints ⟨10, 10⟩ ⟨90, 90⟩
     (Polygon.mk [⟨0, 0⟩, ⟨100, 0⟩, ⟨100, 100⟩, ⟨0, 100⟩]) (by norm_num)).1⟩

/-! ### The C1 counterexample

A U-shaped walkable polygon (a 100×100 room with a 20-wide notch cut
upward from the bottom edge to height 60).  The end point sits inside
the notch, outside the polygon; its projection (closest boundary point
`(40, 16)` nudged 2 units toward the centre `(50, 40)`, at distance 26)
is `(530/13, 232/13)`, still inside the notch and hence outside the
polygon, so the direct-walk test fails.  The start `(38, 18)` is inside
the polygon and within 5 units of the projected end, so A* returns at
its very first pop -- with the one-point path `[(38, 18)]`, which does
not end at the projected end. -/

/-- The U-shaped walkable polygon. -/
noncomputable def cexPoly : Polygon :=
  ⟨[⟨0, 0⟩, ⟨40, 0⟩, ⟨40, 60⟩, ⟨60, 60⟩, ⟨60, 0⟩, ⟨100, 0⟩, ⟨100, 100⟩, ⟨0, 100⟩]⟩

/-- The start point, inside the left arm of the U. -/
noncomputable def cexStart : Point := ⟨38, 18⟩

/-- The end point, inside the notch (outside the polygon). -/
noncomputable def cexEnd : Point := ⟨50, 16⟩

/-- The projection of `cexEnd`: `(40, 16)` nudged 2 units toward the
centre `(50, 40)` along the vector `(10, 24)` of length 26. -/
noncomputable def cexProj : Point := ⟨530 / 13, 232 / 13⟩

/-- The ray-casting edge pairs of the counterexample polygon. -/
theorem cex_pairsPrev : edgePairsPrev cexPoly.points =
    [((⟨0, 0⟩ : Point), (⟨0, 100⟩ : Point)), (⟨40, 0⟩, ⟨0, 0⟩), (⟨40, 60⟩, ⟨40, 0⟩),
     (⟨60, 60⟩, ⟨40, 60⟩), (⟨60, 0⟩, ⟨60, 60⟩), (⟨100, 0⟩, ⟨60, 0⟩),
     (⟨100, 100⟩, ⟨100, 0⟩), (⟨0, 100⟩, ⟨100, 100⟩)] := rfl

/-- The boundary-edge pairs of the counterexample polygon. -/
theorem cex_pairsNext : edgePairsNext cexPoly.points =
    [((⟨0, 0⟩ : Point), (⟨40, 0⟩ : Point)), (⟨40, 0⟩, ⟨40, 60⟩), (⟨40, 60⟩, ⟨60, 60⟩),
     (⟨60, 60⟩, ⟨60, 0⟩), (⟨60, 0⟩, ⟨100, 0⟩), (⟨100, 0⟩, ⟨100, 100⟩),
     (⟨100, 100⟩, ⟨0, 100⟩), (⟨0, 100⟩, ⟨0, 0⟩)] := rfl

/-- The start point ray-casts as inside the polygon. -/
theorem cex_inA : isPointInPolygon cexStart cexPoly = true := by
  rw [isPointInPolygon, cex_pairsPrev]
  norm_num [List.foldl_cons, List.foldl_nil, rayCastStep, cexStart]

/-- The end point ray-casts as outside the polygon (it is in the
notch). -/
theorem cex_inB : isPointInPolygon cexEnd cexPoly = false := by
  rw [isPointInPolygon, cex_pairsPrev]
  norm_num [List.foldl_cons, List.foldl_nil, rayCastStep, cexEnd]

/-- The projected end point still ray-casts as outside the polygon. -/
theorem cex_inC : isPointInPolygon cexProj cexPoly = false := by
  rw [isPointInPolygon, cex_pairsPrev]
  norm_num [List.foldl_cons, List.foldl_nil, rayCastStep, cexProj]

/-- Closest points of `cexEnd` on each boundary edge. -/
theorem cex_c1 : closestPointOnLineSegment cexEnd ⟨0, 0⟩ ⟨40, 0⟩ = ⟨40, 0⟩ := by
  norm_num [closestPointOnLineSegment, cexEnd, min_def, max_def, Point.mk.injEq]

theorem cex_c2 : closestPointOnLineSegment cexEnd ⟨40, 0⟩ ⟨40, 60⟩ = ⟨40, 16⟩ := by
  norm_num [closestPointOnLineSegment, cexEnd, min_def, max_def, Point.mk.injEq]

theorem cex_c3 : closestPointOnLineSegment cexEnd ⟨40, 60⟩ ⟨60, 60⟩ = ⟨50, 60⟩ := by
  norm_num [closestPointOnLineSegment, cexEnd, min_def, max_def, Point.mk.injEq]

theorem cex_c4 : closestPointOnLineSegment cexEnd ⟨60, 60⟩ ⟨60, 0⟩ = ⟨60, 16⟩ := by
  norm_num [closestPointOnLineSegment, cexEnd, min_def, max_def, Point.mk.injEq]

theorem cex_c5 : closestPointOnLineSegment cexEnd ⟨60, 0⟩ ⟨100, 0⟩ = ⟨60, 0⟩ := by
  norm_num [closestPointOnLineSegment, cexEnd, min_def, max_def, Point.mk.injEq]

theorem cex_c6 : closestPointOnLineSegment cexEnd ⟨100, 0⟩ ⟨100, 100⟩ = ⟨100, 16⟩ := by
  norm_num [closestPointOnLineSegment, cexEnd, min_def, max_def, Point.mk.injEq]

theorem cex_c7 : closestPointOnLineSegment cexEnd ⟨100, 100⟩ ⟨0, 100⟩ = ⟨50, 100⟩ := by
  norm_num [closestPointOnLineSegment, cexEnd, min_def, max_def, Point.mk.injEq]

theorem cex_c8 : closestPointOnLineSegment cexEnd ⟨0, 100⟩ ⟨0, 0⟩ = ⟨0, 16⟩ := by
  norm_num [closestPointOnLineSegment, cexEnd, min_def, max_def, Point.mk.injEq]

/-- Distances from `cexEnd` to those closest points. -/
theorem cex_d1 : distance cexEnd ⟨40, 0⟩ = Real.sqrt 356 := by
  unfold distance cexEnd
  norm_num

theorem cex_d2 : distance cexEnd ⟨40, 16⟩ = 10 := by
  unfold distance cexEnd
  rw [show ((40:ℝ) - 50) * ((40:ℝ) - 50) + ((16:ℝ) - 16) * ((16:ℝ) - 16) = 10 ^ 2 by norm_num]
  exact Real.sqrt_sq (by norm_num)

theorem cex_d3 : distance cexEnd ⟨50, 60⟩ = Real.sqrt 1936 := by
  unfold distance cexEnd
  norm_num

theorem cex_d4 : distance cexEnd ⟨60, 16⟩ = 10 := by
  unfold distance cexEnd
  rw [show ((60:ℝ) - 50) * ((60:ℝ) - 50) + ((16:ℝ) - 16) * ((16:ℝ) - 16) = 10 ^ 2 by norm_num]
  exact Real.sqrt_sq (by norm_num)

theorem cex_d5 : distance cexEnd ⟨60, 0⟩ = Real.sqrt 356 := by
  unfold distance cexEnd
  norm_num

theorem cex_d6 : distance cexEnd ⟨100, 16⟩ = Real.sqrt 2500 := by
  unfold distance cexEnd
  norm_num

theorem cex_d7 : distance cexEnd ⟨50, 100⟩ = Real.sqrt 7056 := by
  unfold distance cexEnd
  norm_num

theorem cex_d8 : distance cexEnd ⟨0, 16⟩ = Real.sqrt 2500 := by
  unfold distance cexEnd
  norm_num

/-- `10 < √356`. -/
theorem cex_cmp2 : (10 : ℝ) < Real.sqrt 356 := by
  rw [show (10:ℝ) = Real.sqrt (10 ^ 2) from (Real.sqrt_sq (by norm_num)).symm]
  exact Real.sqrt_lt_sqrt (by norm_num) (by norm_num)

/-- A square root of a value at least 100 is not below 10. -/
theorem cex_cmp_ge (N : ℝ) (hN : 100 ≤ N) : ¬ Real.sqrt N < 10 := by
  intro hcon
  rw [Real.sqrt_lt' (by norm_num : (0:ℝ) < 10)] at hcon
  norm_num at hcon
  linarith

/-- The closest-boundary-point fold for `cexEnd` settles on `(40, 16)`
at distance 10. -/
theorem cex_fold :
    (edgePairsNext cexPoly.points).foldl (closestEdgeStep cexEnd)
      (cexPoly.points.headD ⟨0, 0⟩, none) = ((⟨40, 16⟩ : Point), some (10 : ℝ)) := by
  rw [cex_pairsNext]
  rw [show cexPoly.points.headD ⟨0, 0⟩ = (⟨0, 0⟩ : Point) from rfl]
  have e1 : closestEdgeStep cexEnd ((⟨0, 0⟩ : Point), (none : Option ℝ)) (⟨0, 0⟩, ⟨40, 0⟩) =
      ((⟨40, 0⟩ : Point), some (Real.sqrt 356)) := by
    simp only [closestEdgeStep, cex_c1, cex_d1]
  have e2 : closestEdgeStep cexEnd ((⟨40, 0⟩ : Point), some (Real.sqrt 356)) (⟨40, 0⟩, ⟨40, 60⟩) =
      ((⟨40, 16⟩ : Point), some (10 : ℝ)) := by
    simp only [closestEdgeStep, cex_c2, cex_d2]
    rw [if_pos cex_cmp2]
  have e3 : closestEdgeStep cexEnd ((⟨40, 16⟩ : Point), some (10 : ℝ)) (⟨40, 60⟩, ⟨60, 60⟩) =
      ((⟨40, 16⟩ : Point), some (10 : ℝ)) := by
    simp only [closestEdgeStep, cex_c3, cex_d3]
    rw [if_neg (cex_cmp_ge 1936 (by norm_num))]
  have e4 : closestEdgeStep cexEnd ((⟨40, 16⟩ : Point), some (10 : ℝ)) (⟨60, 60⟩, ⟨60, 0⟩) =
      ((⟨40, 16⟩ : Point), some (10 : ℝ)) := by
    simp only [closestEdgeStep, cex_c4, cex_d4]
    rw [if_neg (by norm_num : ¬ (10:ℝ) < 10)]
  have e5 : closestEdgeStep cexEnd ((⟨40, 16⟩ : Point), some (10 : ℝ)) (⟨60, 0⟩, ⟨100, 0⟩) =
      ((⟨40, 16⟩ : Point), some (10 : ℝ)) := by
    simp only [closestEdgeStep, cex_c5, cex_d5]
    rw [if_neg (cex_cmp_ge 356 (by norm_num))]
  have e6 : closestEdgeStep cexEnd ((⟨40, 16⟩ : Point), some (10 : ℝ)) (⟨100, 0⟩, ⟨100, 100⟩) =
      ((⟨40, 16⟩ : Point), some (10 : ℝ)) := by
    simp only [closestEdgeStep, cex_c6, cex_d6]
    rw [if_neg (cex_cmp_ge 2500 (by norm_num))]
  have e7 : closestEdgeStep cexEnd ((⟨40, 16⟩ : Point), some (10 : ℝ)) (⟨100, 100⟩, ⟨0, 100⟩) =
      ((⟨40, 16⟩ : Point), some (10 : ℝ)) := by
    simp only [closestEdgeStep, cex_c7, cex_d7]
    rw [if_neg (cex_cmp_ge 7056 (by norm_num))]
  have e8 : closestEdgeStep cexEnd ((⟨40, 16⟩ : Point), some (10 : ℝ)) (⟨0, 100⟩, ⟨0, 0⟩) =
      ((⟨40, 16⟩ : Point), some (10 : ℝ)) := by
    simp only [closestEdgeStep, cex_c8, cex_d8]
    rw [if_neg (cex_cmp_ge 2500 (by norm_num))]
  rw [List.foldl_cons, e1, List.foldl_cons, e2, List.foldl_cons, e3, List.foldl_cons, e4,
    List.foldl_cons, e5, List.foldl_cons, e6, List.foldl_cons, e7, List.foldl_cons, e8,
    List.foldl_nil]

/-- `√676 = 26`. -/
theorem cex_sqrt676 : Real.sqrt 676 = 26 := by
  rw [show (676:ℝ) = 26 ^ 2 by norm_num]
  exact Real.sqrt_sq (by norm_num)

/-- The centre of the counterexample polygon. -/
theorem cex_center : getPolygonCenter cexPoly = ⟨50, 40⟩ := by
  unfold getPolygonCenter cexPoly
  norm_num [Point.mk.injEq]

/-- Nudging `(40, 16)` toward the centre gives the projected end. -/
theorem cex_nudge : nudgeTowardCenter cexPoly ⟨40, 16⟩ = cexProj := by
  simp only [nudgeTowardCenter, cex_center]
  rw [show ((50:ℝ) - 40) * ((50:ℝ) - 40) + ((40:ℝ) - 16) * ((40:ℝ) - 16) = (676:ℝ) by norm_num]
  rw [cex_sqrt676]
  rw [if_pos (by norm_num : (26:ℝ) > 0)]
  unfold cexProj
  norm_num [Point.mk.injEq]

/-- The projection of the end point. -/
theorem cex_proj : getClosestPointInPolygon cexEnd cexPoly = cexProj := by
  unfold getClosestPointInPolygon
  rw [cex_inB, if_neg Bool.false_ne_true, cex_fold]
  exact cex_nudge

/-- The start point projects to itself. -/
theorem cex_start_proj : getClosestPointInPolygon cexStart cexPoly = cexStart := by
  unfold getClosestPointInPolygon
  rw [cex_inA, if_pos rfl]

/-- The direct walk between the projections fails (the projected end
is outside the polygon). -/
theorem cex_noDirect : canWalkDirectly cexStart cexProj cexPoly = false := by
  unfold canWalkDirectly
  rw [cex_inA, cex_inC]
  rfl

/-- The projections are within the 5-unit goal radius of each other. -/
theorem cex_close : distance cexStart cexProj < 5 := by
  unfold distance cexStart cexProj
  rw [Real.sqrt_lt' (by norm_num : (0:ℝ) < 5)]
  norm_num

/-- C1 counterexample: on the U-shaped polygon, `findPath` returns the
one-point path `[(38, 18)]` -- the A* goal test fires at the very
first pop because the projected start is within 5 units of the
projected end -- so the returned path does **not** end at the
projected end `(530/13, 232/13)`, refuting the claim that it always
ends there. -/
theorem c1_findPath_counterexample :
    findPath cexStart cexEnd cexPoly = [cexStart] ∧
    getClosestPointInPolygon cexEnd cexPoly = cexProj ∧
    (findPath cexStart cexEnd cexPoly).getLast? ≠
      some (getClosestPointInPolygon cexEnd cexPoly) := by
  have hpath : findPath cexStart cexEnd cexPoly = [cexStart] := by
    unfold findPath
    rw [cex_start_proj, cex_proj]
    dsimp only
    rw [cex_noDirect, if_neg Bool.false_ne_true]
    rw [aStarLoop_cons cexPoly cexStart cexProj
      (generateNavNodes cexPoly 30 ++ [cexStart, cexProj])
      ((generateNavNodes cexPoly 30 ++ [cexStart, cexProj]).length + 1)
      ⟨cexStart, 0, distance cexStart cexProj, distance cexStart cexProj, [cexStart]⟩ []
      [⟨cexStart, 0, distance cexStart cexProj, distance cexStart cexProj, [cexStart]⟩] []
      rfl]
    rw [if_pos cex_close]
    unfold smoothPath
    rw [if_pos (by simp : ([cexStart] : List Point).length ≤ 2)]
  have hne : cexStart ≠ cexProj := by
    intro hcon
    have hx : (38 : ℝ) = 530 / 13 := congrArg Point.x hcon
    norm_num at hx
  refine ⟨hpath, cex_proj, ?_⟩
  rw [hpath, cex_proj]
  intro hcon
  exact hne (Option.some.inj hcon)

end MarbleSwindle
